import Mathlib

/-!
Verification development for the `multiplayer-game` server (`server.js`).

The server is a Socket.IO coordinator for a turn-based word game.  We give a
shallow embedding of its room registry, turn engine, validation pipeline and
the socket event handlers, and prove the specified properties about them.

Modelling conventions:
* socket ids are `Nat`, room codes are `String`;
* `Date.now()` and the `Math.random()` draws are passed in as explicit
  parameters (`now`, and a draw index `k` that selects among the available
  letters exactly as `Math.floor(Math.random()*n)` can);
* every handler returns the new registry together with the list of emitted
  events; event payloads are abbreviated to short strings, the event name and
  audience are kept exactly;
* the scheduled turn timeout is modelled by `timerHandle : Option Nat`
  recording the serial captured by the pending callback, and `timeoutFire`
  embeds the callback body itself (the guard on room existence and
  `turnSerial`), so a stale callback can be invoked on any state;
* the two concatenated iterations of `server.js` agree except for the
  consonant-run bound in `looksLegitWord` (3+ in the first iteration, 4+ in
  the final one); we embed the final iteration, which is also what the spec
  describes.
-/

namespace MPG

/-! ### Character helpers shared by the code and the spec predicates -/

def isSpaceChar (c : Char) : Bool :=
  c == ' ' || c == '\t' || c == '\n' || c == '\r'

/-- ASCII lower-casing, the effect of JavaScript `toLowerCase` on the
alphabet we care about. -/
def jsToLower (c : Char) : Char :=
  if 65 ≤ c.toNat && c.toNat ≤ 90 then Char.ofNat (c.toNat + 32) else c

/-- JavaScript `String.prototype.trim`: drop whitespace from both ends. -/
def jsTrim (s : List Char) : List Char :=
  ((s.dropWhile isSpaceChar).reverse.dropWhile isSpaceChar).reverse

/-- The character class `[a-z]`. -/
def isLowerAlpha (c : Char) : Bool := 97 ≤ c.toNat && c.toNat ≤ 122

def isVowel (c : Char) : Bool :=
  c == 'a' || c == 'e' || c == 'i' || c == 'o' || c == 'u'

/-- The character class `[bcdfghjklmnpqrstvwxyz]` of the validator. -/
def isConsonant (c : Char) : Bool := isLowerAlpha c && !isVowel c

/-- Regex `/(.)\1\1/.test t`: three identical characters in a row somewhere. -/
def hasTriple : List Char → Bool
  | a :: b :: c :: rest => (a == b && b == c) || hasTriple (b :: c :: rest)
  | _ => false

/-- Regex `/[bcdfghjklmnpqrstvwxyz]\x7b4,\x7d/.test t`: four consecutive
consonants somewhere. -/
def hasConsRun4 : List Char → Bool
  | a :: b :: c :: d :: rest =>
      (isConsonant a && isConsonant b && isConsonant c && isConsonant d)
        || hasConsRun4 (b :: c :: d :: rest)
  | _ => false

/-- Substring test `t.includes(pat)`: `pat` occurs as a contiguous substring. -/
def containsSeq : List Char → List Char → Bool
  | s, pat =>
    match s with
    | [] => pat.isEmpty
    | _ :: rest => pat.isPrefixOf s || containsSeq rest pat

/-- The fixed block-list of rare n-grams of `looksLegitWord`. -/
def rareGrams : List (List Char) :=
  ["qj", "xv", "zx", "jj", "kk", "fq", "jh", "kjh", "xq", "pz"].map String.toList

/-- Count `(t.match(/[qxz]/g) || []).length`. -/
def rareQXZCount (s : List Char) : Nat :=
  (s.filter (fun c => c == 'q' || c == 'x' || c == 'z')).length

/-- Regex `/(..)\1\x7b2,\x7d/` or `/(...)\1\x7b2,\x7d/` at one position: the
unit formed by the first `n` characters repeated three times in a row. -/
def repUnitHere (n : Nat) (s : List Char) : Bool :=
  (s.take n).length == n && ((s.take n) ++ (s.take n) ++ (s.take n)).isPrefixOf s

/-- The whole regex test: such a triple repetition starting anywhere. -/
def hasRepUnit (n : Nat) : List Char → Bool
  | [] => repUnitHere n []
  | a :: rest => repUnitHere n (a :: rest) || hasRepUnit n rest

/-! ### The heuristic validator (final iteration of `server.js`) -/

/-- Function `looksLegitWord` from `server.js` (final iteration): form-based filter
for a plausible single word, no dictionary. -/
def looksLegitWord (w : List Char) : Bool :=
  if w.isEmpty then false
  else
    let t := (jsTrim w).map jsToLower
    if !(t.length ≥ 1 && t.all isLowerAlpha) then false
    else if t.length < 3 || t.length > 12 then false
    else if !(t.any isVowel) then false
    else if hasTriple t then false
    else if hasConsRun4 t then false
    else if rareGrams.any (fun p => containsSeq t p) then false
    else if rareQXZCount t > 2 then false
    else if hasRepUnit 2 t || hasRepUnit 3 t then false
    else true

/-- Function `validateCategory` from `server.js`: first character must be the
round's letter (case-folded), then the heuristic word checks. -/
def validateCategory (word : List Char) (letter : Char) : Bool :=
  if word.isEmpty then false
  else
    let t := (jsTrim word).map jsToLower
    match t with
    | [] => false
    | c :: _ => if c != jsToLower letter then false else looksLegitWord t

/-! ### The spec-side reading of the validator (for claim C5)

`claimValidate` follows the claim text literally, in particular reading
"is not a 2-3 letter unit repeated 3 or more times" as a condition on the
whole token.  `specValidate` is the amended reading in which the
repetition test is the substring scan the code performs. -/

/-- The unit `u` concatenated `k` times. -/
def repList (u : List Char) : Nat → List Char
  | 0 => []
  | k + 1 => u ++ repList u k

/-- The whole token is a 2- or 3-letter unit repeated at least 3 times. -/
def isUnitRepetition (t : List Char) : Bool :=
  (t.length % 2 == 0 && t.length / 2 ≥ 3 && t == repList (t.take 2) (t.length / 2)) ||
  (t.length % 3 == 0 && t.length / 3 ≥ 3 && t == repList (t.take 3) (t.length / 3))

/-- Claim C5 read literally: first character is the case-folded required
letter, the token is one lowercase word of length 3-12 with a vowel, no
triple letter, no 4-consonant run, no blocked rare n-gram, at most two of
q, x, z, and the token is not itself a short unit repeated 3+ times. -/
def claimValidate (word : List Char) (letter : Char) : Bool :=
  let t := (jsTrim word).map jsToLower
  t.head? == some (jsToLower letter) &&
  (t.length ≥ 1 && t.all isLowerAlpha) &&
  (3 ≤ t.length && t.length ≤ 12) &&
  t.any isVowel &&
  !hasTriple t &&
  !hasConsRun4 t &&
  rareGrams.all (fun p => !containsSeq t p) &&
  rareQXZCount t ≤ 2 &&
  !isUnitRepetition t

/-- The amended conjunction: identical to `claimValidate` except that the
repetition condition is "contains no substring that is a 2-3 letter unit
repeated 3 or more times". -/
def specValidate (word : List Char) (letter : Char) : Bool :=
  let t := (jsTrim word).map jsToLower
  t.head? == some (jsToLower letter) &&
  (t.length ≥ 1 && t.all isLowerAlpha) &&
  (3 ≤ t.length && t.length ≤ 12) &&
  t.any isVowel &&
  !hasTriple t &&
  !hasConsRun4 t &&
  rareGrams.all (fun p => !containsSeq t p) &&
  rareQXZCount t ≤ 2 &&
  !(hasRepUnit 2 t || hasRepUnit 3 t)

/-! ### Game state -/

structure Player where
  id : Nat
  name : String
  score : Nat
deriving Repr, DecidableEq

inductive GState where
  | lobby
  | playing
  | ended
deriving Repr, DecidableEq

/-- One room object, field for field the object built by `createRoom`.
`timerHandle` holds the `turnSerial` value captured by the currently
scheduled timeout callback, `none` when no timeout is pending. -/
structure Room where
  hostId : Nat
  players : List Player
  order : List Nat
  state : GState
  turnIndex : Nat
  roundsPerPlayer : Nat
  currentLetter : Option Char
  usedLetters : List Char
  timerEndTs : Option Nat
  timerHandle : Option Nat
  turnSerial : Nat
deriving Repr, DecidableEq

/-- The `ROOMS` object: an association list with unique codes. -/
abbrev Rooms := List (String × Room)

def findRoom : Rooms → String → Option Room
  | [], _ => none
  | (c', r) :: rest, c => if c' = c then some r else findRoom rest c

/-- Assignment `ROOMS[code] = room`: update in place, or append a fresh key. -/
def setRoom : Rooms → String → Room → Rooms
  | [], c, r => [(c, r)]
  | (c', r') :: rest, c, r =>
      if c' = c then (c, r) :: rest else (c', r') :: setRoom rest c r

/-- Deletion `delete ROOMS[code]`. -/
def removeRoom : Rooms → String → Rooms
  | [], _ => []
  | (c', r') :: rest, c =>
      if c' = c then removeRoom rest c else (c', r') :: removeRoom rest c

/-- The alphabet `LETTERS`. -/
def LETTERS : List Char := "ABCDEFGHIJKLMNOPQRSTUVWXYZ".toList

/-- Function `randomLetter(used)`: pick among the letters not yet used; once all are
used, pick from the full alphabet.  The draw index `k` stands for the
`Math.random()` outcome: any index into the candidate list is possible. -/
def randomLetter (used : List Char) (k : Nat) : Char :=
  let avail := LETTERS.filter (fun l => !used.contains l)
  if avail.length ≠ 0 then avail.getD (k % avail.length) 'A'
  else LETTERS.getD (k % LETTERS.length) 'A'

/-- Function `currentPlayer(room)`: the player whose id sits at
`order[turnIndex % order.length]`; `none` when the index or the id resolves
to nothing (JavaScript `undefined`). -/
def currentPlayer (room : Room) : Option Player :=
  match room.order.get? (room.turnIndex % room.order.length) with
  | none => none
  | some i => room.players.find? (fun p => p.id == i)

/-- Outbound events: to one socket or to the whole room.  Payloads are kept
as short strings (`msg`); snapshot payloads are elided as `""`. -/
inductive Emit where
  | toOne (sid : Nat) (event : String) (msg : String)
  | toRoom (code : String) (event : String) (msg : String)
deriving Repr, DecidableEq

/-- The five submitted category answers. -/
structure Answers where
  name : String
  place : String
  animal : String
  thing : String
  movie : String
deriving Repr, DecidableEq

/-- The conjunction `ok` computed by the `submitAnswers` handler. -/
def allFiveOk (a : Answers) (letter : Char) : Bool :=
  validateCategory a.name.toList letter &&
  validateCategory a.place.toList letter &&
  validateCategory a.animal.toList letter &&
  validateCategory a.thing.toList letter &&
  validateCategory a.movie.toList letter

/-! ### Turn engine -/

/-- Function `startTurn(code)` from the turn engine.  `k` selects the random letter
draw, `now` is `Date.now()`.  Scheduling the timeout is recorded by setting
`timerHandle` to the captured serial (the previous handle is cleared first,
exactly as `clearTimeout` then `setTimeout`). -/
def startTurn (rs : Rooms) (code : String) (k now : Nat) : Rooms × List Emit :=
  match findRoom rs code with
  | none => (rs, [])
  | some room =>
    let maxTurns := room.players.length * room.roundsPerPlayer
    if room.turnIndex ≥ maxTurns then
      (setRoom rs code { room with state := .ended },
       [.toRoom code "roomUpdate" "", .toRoom code "toast" "Game Over!"])
    else
      let serial := room.turnSerial + 1
      let L := randomLetter room.usedLetters k
      (setRoom rs code
        { room with
          turnSerial := serial
          currentLetter := some L
          usedLetters := room.usedLetters ++ [L]
          timerEndTs := some (now + 30000)
          timerHandle := some serial },
       [.toRoom code "turnStarted" ""])

/-- Function `nextTurn(code)`: clear the pending timeout, advance `turnIndex`, and
start the next turn. -/
def nextTurn (rs : Rooms) (code : String) (k now : Nat) : Rooms × List Emit :=
  match findRoom rs code with
  | none => (rs, [])
  | some room =>
    startTurn
      (setRoom rs code { room with timerHandle := none, turnIndex := room.turnIndex + 1 })
      code k now

/-- The body of the timeout callback scheduled by `startTurn`, with the
captured `code` and `serial`: a no-op unless the room still exists and its
`turnSerial` still equals `serial`. -/
def timeoutFire (rs : Rooms) (code : String) (serial k now : Nat) : Rooms × List Emit :=
  match findRoom rs code with
  | none => (rs, [])
  | some r =>
    if r.turnSerial ≠ serial then (rs, [])
    else
      let p := nextTurn rs code k now
      (p.1, .toRoom code "toast" "Time is up!" :: p.2)

/-! ### Socket event handlers -/

/-- The `createRoom` handler.  The generated room code is passed in (the
generator draws it at random from its own alphabet). -/
def createRoom (rs : Rooms) (sid : Nat) (pname : String) (code : String) :
    Rooms × List Emit :=
  let room : Room :=
    { hostId := sid
      players := [{ id := sid, name := pname, score := 0 }]
      order := [sid]
      state := .lobby
      turnIndex := 0
      roundsPerPlayer := 5
      currentLetter := none
      usedLetters := []
      timerEndTs := none
      timerHandle := none
      turnSerial := 0 }
  (setRoom rs code room,
   [.toOne sid "roomJoined" code, .toRoom code "roomUpdate" ""])

/-- The `joinRoom` handler. -/
def joinRoom (rs : Rooms) (sid : Nat) (pname : String) (code : String) :
    Rooms × List Emit :=
  match findRoom rs code with
  | none => (rs, [.toOne sid "errorMsg" "Room not found."])
  | some room =>
    if room.state ≠ .lobby then (rs, [.toOne sid "errorMsg" "Game already started."])
    else
      (setRoom rs code
        { room with
          players := room.players ++ [{ id := sid, name := pname, score := 0 }]
          order := room.order ++ [sid] },
       [.toOne sid "roomJoined" code, .toRoom code "roomUpdate" ""])

/-- The `startGame` handler. -/
def startGame (rs : Rooms) (sid : Nat) (code : String) (k now : Nat) :
    Rooms × List Emit :=
  match findRoom rs code with
  | none => (rs, [])
  | some room =>
    if room.hostId ≠ sid then (rs, [.toOne sid "errorMsg" "Only host can start."])
    else if room.players.length < 2 then
      (rs, [.toOne sid "errorMsg" "Need at least 2 players."])
    else
      let rs1 := setRoom rs code { room with state := .playing, turnIndex := 0, usedLetters := [] }
      let p := startTurn rs1 code k now
      (p.1, .toRoom code "roomUpdate" "" :: p.2)

/-- Increment `cp.score++` on the object returned by `players.find`: bump the first
entry whose id matches. -/
def bumpScore : List Player → Nat → List Player
  | [], _ => []
  | p :: rest, sid =>
      if p.id = sid then { p with score := p.score + 1 } :: rest
      else p :: bumpScore rest sid

/-- The `submitAnswers` handler.  `k`/`now` feed the next turn that a
successful submission starts.  The `none` fallbacks for a missing current
player or letter are unreachable for rooms the server actually builds. -/
def submitAnswers (rs : Rooms) (sid : Nat) (code : String) (a : Answers)
    (k now : Nat) : Rooms × List Emit :=
  match findRoom rs code with
  | none => (rs, [])
  | some room =>
    if room.state ≠ .playing then (rs, [])
    else
      match currentPlayer room with
      | none => (rs, [])
      | some cp =>
        if cp.id ≠ sid then (rs, [])
        else
          match room.currentLetter with
          | none => (rs, [])
          | some L =>
            if !allFiveOk a L then
              (rs, [.toOne sid "errorMsg"
                "Invalid entries! Use real-looking words (letters only, vowels, no junk)."])
            else
              let rs1 := setRoom rs code { room with players := bumpScore room.players sid }
              let p := nextTurn rs1 code k now
              (p.1, .toRoom code "toast" (cp.name ++ " scored +1") :: p.2
                      ++ [.toRoom code "roomUpdate" ""])

/-- Splice `players.splice(idx, 1)` where `idx` is the first index whose id
matches: drop the first matching entry. -/
def removeFirst : List Player → Nat → List Player
  | [], _ => []
  | p :: rest, sid => if p.id = sid then rest else p :: removeFirst rest sid

/-- The body of the disconnect loop for one room code. -/
def disconnectRoom (rs : Rooms) (code : String) (sid : Nat) (k now : Nat) :
    Rooms × List Emit :=
  match findRoom rs code with
  | none => (rs, [])
  | some room =>
    if room.players.all (fun p => p.id ≠ sid) then (rs, [])
    else
      let wasCurrent := (currentPlayer room).map (·.id) = some sid
      let players1 := removeFirst room.players sid
      let order1 := room.order.filter (fun i => i ≠ sid)
      match players1 with
      | [] => (removeRoom rs code, [])
      | p0 :: rest =>
        let hostId1 := if room.hostId = sid then p0.id else room.hostId
        let rs1 := setRoom rs code
          { room with players := p0 :: rest, order := order1, hostId := hostId1 }
        if room.state = .playing ∧ wasCurrent then
          let p := nextTurn rs1 code k now
          (p.1, .toRoom code "toast" "Player left, skipping turn." :: p.2
                  ++ [.toRoom code "roomUpdate" ""])
        else (rs1, [.toRoom code "roomUpdate" ""])

/-- The `disconnect` handler: iterate over the room codes present when the
event arrives (`Object.entries(ROOMS)`), threading the registry through. -/
def disconnect (rs : Rooms) (sid : Nat) (k now : Nat) : Rooms × List Emit :=
  (rs.map (·.1)).foldl
    (fun acc code =>
      let p := disconnectRoom acc.1 code sid k now
      (p.1, acc.2 ++ p.2))
    (rs, [])

/-! ### Registry lemmas -/

theorem findRoom_setRoom_self (rs : Rooms) (c : String) (r : Room) :
    findRoom (setRoom rs c r) c = some r := by
  induction rs with
  | nil => simp [setRoom, findRoom]
  | cons hd tl ih =>
    obtain ⟨c', r'⟩ := hd
    by_cases h : c' = c
    · simp [setRoom, findRoom, h]
    · simp [setRoom, findRoom, h, ih]

theorem findRoom_setRoom_ne (rs : Rooms) (c c' : String) (r : Room)
    (h : c ≠ c') : findRoom (setRoom rs c r) c' = findRoom rs c' := by
  induction rs with
  | nil => simp [setRoom, findRoom, h]
  | cons hd tl ih =>
    obtain ⟨c₀, r₀⟩ := hd
    by_cases h0 : c₀ = c
    · subst h0
      simp [setRoom, findRoom, h]
    · simp [setRoom, findRoom, h0, ih]

theorem findRoom_removeRoom_self (rs : Rooms) (c : String) :
    findRoom (removeRoom rs c) c = none := by
  induction rs with
  | nil => simp [removeRoom, findRoom]
  | cons hd tl ih =>
    obtain ⟨c₀, r₀⟩ := hd
    by_cases h0 : c₀ = c
    · simp [removeRoom, h0, ih]
    · simp [removeRoom, findRoom, h0, ih]

theorem findRoom_removeRoom_ne (rs : Rooms) (c c' : String) (h : c ≠ c') :
    findRoom (removeRoom rs c) c' = findRoom rs c' := by
  induction rs with
  | nil => simp [removeRoom]
  | cons hd tl ih =>
    obtain ⟨c₀, r₀⟩ := hd
    by_cases h0 : c₀ = c
    · subst h0
      simp [removeRoom, findRoom, h, ih]
    · simp [removeRoom, findRoom, h0, ih]

/-! ### Character lemmas -/

theorem toNat_jsToLower_of_upper (c : Char) (h1 : 65 ≤ c.toNat) (h2 : c.toNat ≤ 90) :
    (jsToLower c).toNat = c.toNat + 32 := by
  have hv : (c.toNat + 32).isValidChar := by left; omega
  have hcond : (decide (65 ≤ c.toNat) && decide (c.toNat ≤ 90)) = true := by
    simp [h1, h2]
  simp only [jsToLower, hcond, if_true]
  unfold Char.ofNat
  split
  · simp [Char.toNat, Char.ofNatAux, UInt32.toNat, BitVec.toNat_ofNatLt]
  · exact absurd hv (by assumption)

theorem jsToLower_eq_self_of_not_upper (c : Char) (h : ¬(65 ≤ c.toNat ∧ c.toNat ≤ 90)) :
    jsToLower c = c := by
  have hcond : (decide (65 ≤ c.toNat) && decide (c.toNat ≤ 90)) = false := by
    rcases Nat.lt_or_ge c.toNat 65 with h1 | h1
    · simp [Nat.not_le_of_lt h1]
    · have h2 : ¬(c.toNat ≤ 90) := fun h2 => h ⟨h1, h2⟩
      simp [h2]
  simp [jsToLower, hcond]

theorem jsToLower_jsToLower (c : Char) : jsToLower (jsToLower c) = jsToLower c := by
  by_cases h : 65 ≤ c.toNat ∧ c.toNat ≤ 90
  · have ht := toNat_jsToLower_of_upper c h.1 h.2
    have : ¬(65 ≤ (jsToLower c).toNat ∧ (jsToLower c).toNat ≤ 90) := by omega
    exact jsToLower_eq_self_of_not_upper _ this
  · rw [jsToLower_eq_self_of_not_upper c h, jsToLower_eq_self_of_not_upper c h]

theorem char_ne_of_toNat_ne {c d : Char} (h : c.toNat ≠ d.toNat) : c ≠ d :=
  fun he => h (congrArg Char.toNat he)

theorem isSpaceChar_eq_false_of_toNat (c : Char)
    (h : c.toNat ≠ 32 ∧ c.toNat ≠ 9 ∧ c.toNat ≠ 10 ∧ c.toNat ≠ 13) :
    isSpaceChar c = false := by
  have e1 : (' ' : Char).toNat = 32 := by decide
  have e2 : ('\t' : Char).toNat = 9 := by decide
  have e3 : ('\n' : Char).toNat = 10 := by decide
  have e4 : ('\r' : Char).toNat = 13 := by decide
  simp only [isSpaceChar, Bool.or_eq_false_iff, beq_eq_false_iff_ne, ne_eq]
  refine ⟨⟨⟨?_, ?_⟩, ?_⟩, ?_⟩ <;> intro he <;> subst he
  · exact h.1 e1
  · exact h.2.1 e2
  · exact h.2.2.1 e3
  · exact h.2.2.2 e4

theorem isSpaceChar_jsToLower (c : Char) : isSpaceChar (jsToLower c) = isSpaceChar c := by
  by_cases h : 65 ≤ c.toNat ∧ c.toNat ≤ 90
  · have ht := toNat_jsToLower_of_upper c h.1 h.2
    rw [isSpaceChar_eq_false_of_toNat (jsToLower c) (by omega),
        isSpaceChar_eq_false_of_toNat c (by omega)]
  · rw [jsToLower_eq_self_of_not_upper c h]

theorem jsToLower_eq_self_of_lower (c : Char) (h : isLowerAlpha c = true) :
    jsToLower c = c := by
  have hn : 97 ≤ c.toNat ∧ c.toNat ≤ 122 := by
    simpa [isLowerAlpha] using h
  exact jsToLower_eq_self_of_not_upper c (by omega)

/-! ### Trimming lemmas -/

theorem dropWhile_dropWhile (p : Char → Bool) (l : List Char) :
    (l.dropWhile p).dropWhile p = l.dropWhile p := by
  induction l with
  | nil => rfl
  | cons a l ih =>
    by_cases h : p a
    · simp [List.dropWhile, h, ih]
    · simp [List.dropWhile, h]

theorem dropWhile_map_pres (f : Char → Char) (p : Char → Bool)
    (hf : ∀ c, p (f c) = p c) (l : List Char) :
    (l.map f).dropWhile p = (l.dropWhile p).map f := by
  induction l with
  | nil => rfl
  | cons a l ih =>
    by_cases h : p a
    · simp [List.dropWhile, hf, h, ih]
    · simp [List.dropWhile, hf, h]

theorem dropWhile_eq_nil_of_all (p : Char → Bool) (l : List Char)
    (h : l.all p = true) : l.dropWhile p = [] := by
  induction l with
  | nil => rfl
  | cons a l ih =>
    simp only [List.all_cons, Bool.and_eq_true] at h
    simp [List.dropWhile, h.1, ih h.2]

theorem dropWhile_append_single (p : Char → Bool) (a : Char) (l : List Char) :
    (l ++ [a]).dropWhile p =
      if l.all p then (if p a then [] else [a]) else l.dropWhile p ++ [a] := by
  induction l with
  | nil =>
    cases h : p a <;> simp [List.dropWhile, h]
  | cons x l ih =>
    by_cases hx : p x
    · simp [List.dropWhile, hx, ih, List.all_cons]
    · simp [List.dropWhile, hx, List.all_cons]

/-- Right trim: drop trailing characters satisfying `p`. -/
def rtrim (p : Char → Bool) (l : List Char) : List Char :=
  (l.reverse.dropWhile p).reverse

theorem jsTrim_eq_rtrim (s : List Char) :
    jsTrim s = rtrim isSpaceChar (s.dropWhile isSpaceChar) := rfl

theorem rtrim_nil (p : Char → Bool) : rtrim p [] = [] := rfl

theorem rtrim_cons (p : Char → Bool) (a : Char) (l : List Char) :
    rtrim p (a :: l) = if p a && l.all p then [] else a :: rtrim p l := by
  show ((a :: l).reverse.dropWhile p).reverse = _
  rw [List.reverse_cons, dropWhile_append_single]
  by_cases hall : l.all p
  · have hrev : l.reverse.all p = true := by simpa using hall
    by_cases ha : p a
    · simp [hrev, ha, hall]
    · have h1 : l.reverse.dropWhile p = [] := dropWhile_eq_nil_of_all p l.reverse hrev
      simp [hrev, ha, hall, rtrim, h1]
  · have hrev : l.reverse.all p = false := by
      cases h : l.reverse.all p
      · rfl
      · exact absurd (by simpa using h) hall
    simp [hrev, hall, rtrim]

theorem dropWhile_rtrim (p : Char → Bool) (l : List Char) :
    (rtrim p l).dropWhile p = rtrim p (l.dropWhile p) := by
  induction l with
  | nil => rfl
  | cons a l ih =>
    rw [rtrim_cons]
    by_cases ha : p a
    · by_cases hall : l.all p
      · have h1 : l.dropWhile p = [] := dropWhile_eq_nil_of_all p l hall
        simp [ha, hall, List.dropWhile, h1, rtrim_nil]
      · have hc : (p a && l.all p) = false := by simp [hall]
        rw [hc]
        simp [List.dropWhile, ha, ih]
    · have hc : (p a && l.all p) = false := by simp [ha]
      rw [hc]
      simp only [Bool.false_eq_true, if_false]
      have hd : List.dropWhile p (a :: l) = a :: l := by simp [List.dropWhile, ha]
      have ha' : p a = false := by simpa using ha
      rw [hd, rtrim_cons, hc]
      simp [List.dropWhile, ha']

theorem rtrim_rtrim (p : Char → Bool) (l : List Char) :
    rtrim p (rtrim p l) = rtrim p l := by
  unfold rtrim
  rw [List.reverse_reverse, dropWhile_dropWhile]

theorem jsTrim_jsTrim (s : List Char) : jsTrim (jsTrim s) = jsTrim s := by
  rw [jsTrim_eq_rtrim, jsTrim_eq_rtrim, dropWhile_rtrim, dropWhile_dropWhile, rtrim_rtrim]

theorem rtrim_map_pres (f : Char → Char) (p : Char → Bool)
    (hf : ∀ c, p (f c) = p c) (l : List Char) :
    rtrim p (l.map f) = (rtrim p l).map f := by
  unfold rtrim
  rw [← List.map_reverse, dropWhile_map_pres f p hf, List.map_reverse]

theorem jsTrim_map_jsToLower (s : List Char) :
    jsTrim (s.map jsToLower) = (jsTrim s).map jsToLower := by
  rw [jsTrim_eq_rtrim, jsTrim_eq_rtrim,
      dropWhile_map_pres jsToLower isSpaceChar isSpaceChar_jsToLower,
      rtrim_map_pres jsToLower isSpaceChar isSpaceChar_jsToLower]

theorem map_jsToLower_map_jsToLower (s : List Char) :
    (s.map jsToLower).map jsToLower = s.map jsToLower := by
  rw [List.map_map]
  exact List.map_congr_left (fun c _ => jsToLower_jsToLower c)

/-- The token computed by `looksLegitWord` from an already trimmed and
case-folded token is that token itself. -/
theorem retrim (w : List Char) :
    (jsTrim ((jsTrim w).map jsToLower)).map jsToLower = (jsTrim w).map jsToLower := by
  rw [jsTrim_map_jsToLower, jsTrim_jsTrim, map_jsToLower_map_jsToLower]

/-! ### The validator as a conjunction -/

theorem allNot_eq_not_any {α : Type} (f : α → Bool) (l : List α) :
    (l.all fun x => !f x) = !(l.any f) := by
  induction l with
  | nil => rfl
  | cons a l ih => simp [List.all_cons, List.any_cons, ih]

theorem looksLegitWord_fixed (t : List Char)
    (ht : (jsTrim t).map jsToLower = t) :
    looksLegitWord t =
      ((t.length ≥ 1 && t.all isLowerAlpha) &&
       (3 ≤ t.length && t.length ≤ 12) &&
       t.any isVowel &&
       !hasTriple t &&
       !hasConsRun4 t &&
       rareGrams.all (fun p => !containsSeq t p) &&
       rareQXZCount t ≤ 2 &&
       !(hasRepUnit 2 t || hasRepUnit 3 t)) := by
  have hlen : (decide (3 ≤ t.length) && decide (t.length ≤ 12))
      = !(decide (t.length < 3) || decide (t.length > 12)) := by
    by_cases h3 : 3 ≤ t.length
    · by_cases h12 : t.length ≤ 12
      · simp [h3, h12]
      · simp [h3, h12]
        omega
    · simp [h3]
  have hqxz : (decide (rareQXZCount t ≤ 2)) = !(decide (rareQXZCount t > 2)) := by
    by_cases hq : rareQXZCount t ≤ 2
    · simp [hq]
    · simp [hq]
      omega
  have hgram : (rareGrams.all fun p => !containsSeq t p)
      = !(rareGrams.any fun p => containsSeq t p) :=
    allNot_eq_not_any _ _
  cases t with
  | nil => rfl
  | cons c0 t0 =>
    unfold looksLegitWord
    rw [ht]
    simp only [List.isEmpty_cons, Bool.false_eq_true, if_false]
    cases h1 : ((c0 :: t0).length ≥ 1 && (c0 :: t0).all isLowerAlpha)
    · simp [h1]
    · simp only [h1, Bool.not_true, Bool.false_eq_true, if_false, Bool.true_and]
      cases h2 : (decide ((c0 :: t0).length < 3) || decide ((c0 :: t0).length > 12))
      · simp only [h2, Bool.false_eq_true, if_false]
        have h2' : (decide (3 ≤ (c0 :: t0).length) && decide ((c0 :: t0).length ≤ 12)) = true := by
          rw [hlen, h2]; rfl
        rw [h2']
        simp only [Bool.true_and]
        cases h3 : (c0 :: t0).any isVowel
        · simp [h3]
        · simp only [h3, Bool.not_true, Bool.false_eq_true, if_false, Bool.true_and]
          cases h4 : hasTriple (c0 :: t0)
          · simp only [h4, Bool.false_eq_true, if_false, Bool.not_false, Bool.true_and]
            cases h5 : hasConsRun4 (c0 :: t0)
            · simp only [h5, Bool.false_eq_true, if_false, Bool.not_false, Bool.true_and]
              cases h6 : (rareGrams.any fun p => containsSeq (c0 :: t0) p)
              · have h6' : (rareGrams.all fun p => !containsSeq (c0 :: t0) p) = true := by
                  rw [hgram, h6]; rfl
                simp only [h6, Bool.false_eq_true, if_false, h6', Bool.true_and]
                cases h7 : decide (rareQXZCount (c0 :: t0) > 2)
                · have h7' : decide (rareQXZCount (c0 :: t0) ≤ 2) = true := by
                    rw [hqxz, h7]; rfl
                  simp only [h7, Bool.false_eq_true, if_false, h7', Bool.true_and]
                  have h7n : rareQXZCount (c0 :: t0) ≤ 2 := by
                    have := of_decide_eq_false h7
                    omega
                  cases h8 : (hasRepUnit 2 (c0 :: t0) || hasRepUnit 3 (c0 :: t0))
                  · simp [h8, h7n]
                  · simp [h8, h7n]
                · have h7' : decide (rareQXZCount (c0 :: t0) ≤ 2) = false := by
                    rw [hqxz, h7]; rfl
                  simp [h7, h7']
              · have h6' : (rareGrams.all fun p => !containsSeq (c0 :: t0) p) = false := by
                  rw [hgram, h6]; rfl
                simp [h6, h6']
            · simp [h5]
          · simp [h4]
      · have h2' : (decide (3 ≤ (c0 :: t0).length) && decide ((c0 :: t0).length ≤ 12)) = false := by
          rw [hlen, h2]; rfl
        rw [if_pos rfl]
        simp only [h2', Bool.and_false, Bool.false_and]

/-- Claim C5 (amended): the category validator is exactly the spec's
conjunction, with the repetition test read as a substring scan. -/
theorem validateCategory_eq_specValidate (w : List Char) (L : Char) :
    validateCategory w L = specValidate w L := by
  unfold validateCategory specValidate
  by_cases hw : w.isEmpty
  · have hwnil : w = [] := by
      cases w
      · rfl
      · simp [List.isEmpty_cons] at hw
    subst hwnil
    rfl
  · have hw' : w.isEmpty = false := by simpa using hw
    simp only [hw', Bool.false_eq_true, if_false]
    cases htk : (jsTrim w).map jsToLower with
    | nil => simp [htk]
    | cons c0 t0 =>
      have hfix : (jsTrim (c0 :: t0)).map jsToLower = c0 :: t0 := by
        rw [← htk]; exact retrim w
      rw [looksLegitWord_fixed _ hfix]
      simp only [List.head?_cons]
      cases hc : (c0 == jsToLower L)
      · have : (c0 != jsToLower L) = true := by simp [bne, hc]
        simp [this, hc]
      · have : (c0 != jsToLower L) = false := by simp [bne, hc]
        simp only [this, Bool.false_eq_true, if_false]
        have : (some c0 == some (jsToLower L)) = true := by
          simpa using hc
        rw [this]
        simp only [Bool.true_and]

/-! ### More registry lemmas -/

theorem findRoom_setRoom_cases (rs : Rooms) (c c' : String) (r : Room) :
    findRoom (setRoom rs c r) c' = if c = c' then some r else findRoom rs c' := by
  by_cases h : c = c'
  · subst h
    simp [findRoom_setRoom_self]
  · simp [h, findRoom_setRoom_ne rs c c' r h]

theorem findRoom_removeRoom_cases (rs : Rooms) (c c' : String) :
    findRoom (removeRoom rs c) c' = if c = c' then none else findRoom rs c' := by
  by_cases h : c = c'
  · subst h
    simp [findRoom_removeRoom_self]
  · simp [h, findRoom_removeRoom_ne rs c c' h]

/-! ### A concrete two-player game, built by the actual handlers -/

/-- Junk room used as a `getD` fallback in concrete statements. -/
def noRoom : Room :=
  { hostId := 0, players := [], order := [], state := .lobby, turnIndex := 0,
    roundsPerPlayer := 0, currentLetter := none, usedLetters := [],
    timerEndTs := none, timerHandle := none, turnSerial := 0 }

def demoRooms0 : Rooms := (createRoom [] 1 "Asha" "R").1

def demoRooms1 : Rooms := (joinRoom demoRooms0 2 "Ravi" "R").1

def demoRooms2 : Rooms := (startGame demoRooms1 1 "R" 0 0).1

def demoRoom0 : Room := (findRoom demoRooms0 "R").getD noRoom

def demoRoom2 : Room := (findRoom demoRooms2 "R").getD noRoom

def demoAnswers : Answers :=
  { name := "apple", place := "apple", animal := "apple", thing := "apple",
    movie := "apple" }

/-! ### Claim C1 -/

/-- Claim C1: invoking a scheduled turn-timeout callback that captured
serial `g` when the room no longer exists, or when the room's current
`turnSerial` differs from `g`, is a silent no-op: the registry is returned
unchanged (so no room field changes and no turn advance happens) and
nothing is emitted. -/
theorem C1_stale_timeout_noop (rs : Rooms) (code : String) (serial k now : Nat)
    (h : findRoom rs code = none ∨
         ∃ r, findRoom rs code = some r ∧ r.turnSerial ≠ serial) :
    timeoutFire rs code serial k now = (rs, []) := by
  unfold timeoutFire
  rcases h with h | ⟨r, hr, hs⟩
  · rw [h]
  · rw [hr]
    simp only [if_pos hs]

theorem C1_stale_timeout_noop_witness :
    timeoutFire demoRooms2 "R" 99 0 0 = (demoRooms2, []) := by
  exact C1_stale_timeout_noop demoRooms2 "R" 99 0 0
    (Or.inr ⟨demoRoom2, by decide, by decide⟩)

/-! ### Claim C5 -/

/-- Claim C5 as stated fails on the code: the raw answer "aababab"
satisfies every itemized condition of the claim — in particular the token
is not itself a 2-3 letter unit repeated 3+ times — yet the validator
rejects it, because the code's repetition test is an unanchored substring
scan and "aababab" contains "ababab". -/
theorem C5_counterexample :
    validateCategory "aababab".toList 'A' = false ∧
    claimValidate "aababab".toList 'A' = true := by
  decide

/-- Claim C5 (amended): the heuristic validator accepts a raw answer for a
required letter exactly when the trimmed, case-folded token starts with the
case-folded letter, is one lowercase word of length 3-12 containing a
vowel, has no 3 identical characters in a row, no run of 4+ consonants,
none of the blocked rare n-grams, at most two characters from q, x, z, and
contains no substring that is a 2-3 letter unit repeated 3 or more times;
and the submission-level check accepts exactly when all five category
answers individually validate. -/
theorem C5_validator_spec :
    (∀ (w : List Char) (L : Char), validateCategory w L = specValidate w L) ∧
    (∀ (a : Answers) (L : Char),
      allFiveOk a L = true ↔
        (validateCategory a.name.toList L = true ∧
         validateCategory a.place.toList L = true ∧
         validateCategory a.animal.toList L = true ∧
         validateCategory a.thing.toList L = true ∧
         validateCategory a.movie.toList L = true)) := by
  constructor
  · exact validateCategory_eq_specValidate
  · intro a L
    simp [allFiveOk, Bool.and_eq_true, and_assoc]

/-! ### Claim C8 -/

/-- Answers that fail the validator (no entry starts with the demo letter). -/
def badAnswers : Answers :=
  { name := "zzz", place := "zzz", animal := "zzz", thing := "zzz",
    movie := "zzz" }

/-- Claim C8: a submission by the current player of a playing room whose
five answers fail validation only sends an error message to the submitting
connection; the registry is returned unchanged, so turnIndex, turnSerial,
currentLetter, timerEndTs, the scores and the room state are all
untouched. -/
theorem C8_invalid_submission_no_advance (rs : Rooms) (sid : Nat) (code : String)
    (a : Answers) (k now : Nat) (room : Room) (cp : Player) (L : Char)
    (hr : findRoom rs code = some room)
    (hstate : room.state = .playing)
    (hcp : currentPlayer room = some cp)
    (hsid : cp.id = sid)
    (hL : room.currentLetter = some L)
    (hbad : allFiveOk a L = false) :
    submitAnswers rs sid code a k now =
      (rs, [.toOne sid "errorMsg"
        "Invalid entries! Use real-looking words (letters only, vowels, no junk)."]) := by
  unfold submitAnswers
  rw [hr]
  dsimp only
  rw [if_neg (by rw [hstate]; exact fun h => h rfl)]
  rw [hcp]
  dsimp only
  rw [if_neg (by rw [hsid]; exact fun h => h rfl)]
  rw [hL]
  dsimp only
  rw [if_pos (by rw [hbad]; rfl)]

theorem C8_invalid_submission_no_advance_witness :
    submitAnswers demoRooms2 1 "R" badAnswers 0 0 =
      (demoRooms2, [.toOne 1 "errorMsg"
        "Invalid entries! Use real-looking words (letters only, vowels, no junk)."]) := by
  exact C8_invalid_submission_no_advance demoRooms2 1 "R" badAnswers 0 0
    demoRoom2 { id := 1, name := "Asha", score := 0 } 'A'
    (by decide) (by decide) (by decide) (by decide) (by decide) (by decide)

/-! ### Claim C2 -/

/-- After `nextTurn` the room still exists, the membership fields are
untouched and `turnIndex` moved up by exactly one (whether the next turn
started or the game ended). -/
theorem nextTurn_advances (rs : Rooms) (code : String) (k now : Nat) (room : Room)
    (hr : findRoom rs code = some room) :
    ∃ r', findRoom (nextTurn rs code k now).1 code = some r' ∧
      r'.players = room.players ∧
      r'.order = room.order ∧
      r'.hostId = room.hostId ∧
      r'.roundsPerPlayer = room.roundsPerPlayer ∧
      r'.turnIndex = room.turnIndex + 1 := by
  unfold nextTurn
  rw [hr]
  dsimp only
  have h1 := findRoom_setRoom_self rs code
    { room with timerHandle := none, turnIndex := room.turnIndex + 1 }
  unfold startTurn
  rw [h1]
  dsimp only
  split
  · exact ⟨_, findRoom_setRoom_self _ _ _, rfl, rfl, rfl, rfl, rfl⟩
  · exact ⟨_, findRoom_setRoom_self _ _ _, rfl, rfl, rfl, rfl, rfl⟩

/-- A valid submission from the current player is scored and advances the
turn (shared workhorse behind claims C2 and C10). -/
theorem submitAnswers_success (rs : Rooms) (sid : Nat) (code : String) (a : Answers)
    (k now : Nat) (room : Room) (cp : Player) (L : Char)
    (hr : findRoom rs code = some room)
    (hstate : room.state = .playing)
    (hcp : currentPlayer room = some cp)
    (hsid : cp.id = sid)
    (hL : room.currentLetter = some L)
    (hok : allFiveOk a L = true) :
    ∃ r', findRoom (submitAnswers rs sid code a k now).1 code = some r' ∧
      r'.players = bumpScore room.players sid ∧
      r'.order = room.order ∧
      r'.hostId = room.hostId ∧
      r'.roundsPerPlayer = room.roundsPerPlayer ∧
      r'.turnIndex = room.turnIndex + 1 ∧
      (submitAnswers rs sid code a k now).2.head? =
        some (.toRoom code "toast" (cp.name ++ " scored +1")) := by
  unfold submitAnswers
  rw [hr]
  dsimp only
  rw [if_neg (by rw [hstate]; exact fun h => h rfl)]
  rw [hcp]
  dsimp only
  rw [if_neg (by rw [hsid]; exact fun h => h rfl)]
  rw [hL]
  dsimp only
  rw [if_neg (by rw [hok]; exact Bool.false_ne_true)]
  dsimp only
  have h1 := findRoom_setRoom_self rs code
    { room with players := bumpScore room.players sid, currentLetter := some L }
  obtain ⟨r', hfind, hp, ho, hh, hrp, hti⟩ :=
    nextTurn_advances
      (setRoom rs code { room with players := bumpScore room.players sid, currentLetter := some L })
      code k now _ h1
  exact ⟨r', hfind, hp, ho, hh, hrp, hti, rfl⟩

/-- Claim C2 as stated fails on the code: the `submitAnswers` handler has
no lateness check at all.  In the demo game the deadline `timerEndTs` is
30000 and the submission arrives at server time 100000, yet the valid
answers are scored (the submitter's score rises to 1), the turn advances,
and the broadcast is the scoring toast, not a "too late" notice. -/
theorem C2_counterexample :
    (findRoom demoRooms2 "R").map (·.timerEndTs) = some (some 30000) ∧
    30000 < 100000 ∧
    (findRoom (submitAnswers demoRooms2 1 "R" demoAnswers 0 100000).1 "R").map
        (fun r => (r.players.map (·.score), r.turnIndex)) = some ([1, 0], 1) ∧
    (submitAnswers demoRooms2 1 "R" demoAnswers 0 100000).2.head? =
      some (.toRoom "R" "toast" ("Asha" ++ " scored +1")) := by
  decide

/-- Claim C2 (amended): the handler ignores the server clock.  Even when
the clock has already passed `timerEndTs`, a submission from the current
player whose five answers validate is handled as a normal success: the
submitter's score entry is bumped, the turn advances by one, and the
broadcast is the scoring toast (no "too late" notice is ever produced). -/
theorem C2_no_lateness_check (rs : Rooms) (sid : Nat) (code : String) (a : Answers)
    (k now : Nat) (room : Room) (cp : Player) (L : Char) (te : Nat)
    (hr : findRoom rs code = some room)
    (hstate : room.state = .playing)
    (hcp : currentPlayer room = some cp)
    (hsid : cp.id = sid)
    (hL : room.currentLetter = some L)
    (_hlate : room.timerEndTs = some te)
    (_hpast : te < now)
    (hok : allFiveOk a L = true) :
    ∃ r', findRoom (submitAnswers rs sid code a k now).1 code = some r' ∧
      r'.players = bumpScore room.players sid ∧
      r'.turnIndex = room.turnIndex + 1 ∧
      (submitAnswers rs sid code a k now).2.head? =
        some (.toRoom code "toast" (cp.name ++ " scored +1")) := by
  obtain ⟨r', hfind, hp, _, _, _, hti, hhead⟩ :=
    submitAnswers_success rs sid code a k now room cp L hr hstate hcp hsid hL hok
  exact ⟨r', hfind, hp, hti, hhead⟩

theorem C2_no_lateness_check_witness :
    ∃ r', findRoom (submitAnswers demoRooms2 1 "R" demoAnswers 0 100000).1 "R" = some r' ∧
      r'.players = bumpScore demoRoom2.players 1 ∧
      r'.turnIndex = demoRoom2.turnIndex + 1 ∧
      (submitAnswers demoRooms2 1 "R" demoAnswers 0 100000).2.head? =
        some (.toRoom "R" "toast" ("Asha" ++ " scored +1")) := by
  exact C2_no_lateness_check demoRooms2 1 "R" demoAnswers 0 100000
    demoRoom2 { id := 1, name := "Asha", score := 0 } 'A' 30000
    (by decide) (by decide) (by decide) (by decide) (by decide) (by decide)
    (by decide) (by decide)

/-! ### Claim C7 -/

def demoRoom1 : Room := (findRoom demoRooms1 "R").getD noRoom

/-- Claim C7 as stated fails on the code: `startGame` never checks that the
room is still in the lobby.  In the demo game the room is already
`playing`, yet a second `startGame` from the host is accepted: no
`errorMsg` is sent, the state is mutated (`turnIndex` reset to 0, a fresh
turn begins, `turnSerial` rises to 2). -/
theorem C7_counterexample :
    (findRoom demoRooms2 "R").map (fun r => r.state) = some GState.playing ∧
    (startGame demoRooms2 1 "R" 0 0).2 =
      [.toRoom "R" "roomUpdate" "", .toRoom "R" "turnStarted" ""] ∧
    (findRoom (startGame demoRooms2 1 "R" 0 0).1 "R").map
      (fun r => (r.state, r.turnIndex, r.turnSerial)) = some (.playing, 0, 2) := by
  decide

/-- Claim C7 (amended): `startGame` is accepted whenever the room exists,
the caller is the host and at least two players are present, regardless of
the room state (there is no lobby-only guard, so a host can restart a game
in progress).  On acceptance it sets `state = playing`, resets `turnIndex`
to 0, clears `usedLetters` (the first turn then appends its fresh draw),
replaces any pending timeout handle with the new turn and starts the first
turn, emitting no `errorMsg`.  A non-host caller, or fewer than two
players, receive exactly one `errorMsg` and the registry is unchanged. -/
theorem C7_startGame_spec (rs : Rooms) (sid : Nat) (code : String) (k now : Nat)
    (room : Room)
    (hr : findRoom rs code = some room) :
    (room.hostId ≠ sid →
      startGame rs sid code k now = (rs, [.toOne sid "errorMsg" "Only host can start."])) ∧
    (room.hostId = sid → room.players.length < 2 →
      startGame rs sid code k now = (rs, [.toOne sid "errorMsg" "Need at least 2 players."])) ∧
    (room.hostId = sid → 2 ≤ room.players.length → 0 < room.roundsPerPlayer →
      findRoom (startGame rs sid code k now).1 code = some
        { room with
          state := .playing
          turnIndex := 0
          currentLetter := some (randomLetter [] k)
          usedLetters := [randomLetter [] k]
          timerEndTs := some (now + 30000)
          timerHandle := some (room.turnSerial + 1)
          turnSerial := room.turnSerial + 1 } ∧
      (startGame rs sid code k now).2 =
        [.toRoom code "roomUpdate" "", .toRoom code "turnStarted" ""]) := by
  refine ⟨?_, ?_, ?_⟩
  · intro h
    unfold startGame
    rw [hr]
    dsimp only
    rw [if_pos h]
  · intro hh hlt
    unfold startGame
    rw [hr]
    dsimp only
    rw [if_neg (by rw [hh]; exact fun hx => hx rfl)]
    rw [if_pos hlt]
  · intro hh h2 hrpp
    have hmax : 0 < room.players.length * room.roundsPerPlayer :=
      Nat.mul_pos (by omega) hrpp
    unfold startGame
    rw [hr]
    dsimp only
    rw [if_neg (by rw [hh]; exact fun hx => hx rfl)]
    rw [if_neg (by omega)]
    dsimp only
    unfold startTurn
    rw [findRoom_setRoom_self]
    dsimp only
    rw [if_neg (by omega)]
    dsimp only
    rw [findRoom_setRoom_self]
    exact ⟨rfl, rfl⟩

theorem C7_startGame_spec_witness :
    findRoom (startGame demoRooms1 1 "R" 0 0).1 "R" = some
      { demoRoom1 with
        state := .playing
        turnIndex := 0
        currentLetter := some (randomLetter [] 0)
        usedLetters := [randomLetter [] 0]
        timerEndTs := some (0 + 30000)
        timerHandle := some (demoRoom1.turnSerial + 1)
        turnSerial := demoRoom1.turnSerial + 1 } ∧
    (startGame demoRooms1 1 "R" 0 0).2 =
      [.toRoom "R" "roomUpdate" "", .toRoom "R" "turnStarted" ""] :=
  (C7_startGame_spec demoRooms1 1 "R" 0 0 demoRoom1 (by decide)).2.2
    (by decide) (by decide) (by decide)

/-! ### Claim C6 -/

theorem getD_mem_of_lt {A : Type} (l : List A) (i : Nat) (d : A)
    (h : i < l.length) : l.getD i d ∈ l := by
  rw [List.getD_eq_getD_get?, List.get?_eq_get h]
  exact List.get_mem l _ _

/-- Claim C6: the letter draw always comes from the alphabet; whenever some
letter of the alphabet is not yet in `usedLetters` the draw avoids every
used letter; and a turn that actually starts stores the drawn letter in
`currentLetter` and appends it to `usedLetters` — so within a game no
letter repeats until all 26 have been drawn. -/
theorem C6_letter_pool :
    (forall (used : List Char) (k : Nat), randomLetter used k ∈ LETTERS) ∧
    (forall (used : List Char) (k : Nat), (∃ l ∈ LETTERS, l ∉ used) →
      randomLetter used k ∉ used) ∧
    (forall (rs : Rooms) (code : String) (k now : Nat) (room : Room),
      findRoom rs code = some room →
      room.turnIndex < room.players.length * room.roundsPerPlayer →
      ∃ r', findRoom (startTurn rs code k now).1 code = some r' ∧
        r'.currentLetter = some (randomLetter room.usedLetters k) ∧
        r'.usedLetters = room.usedLetters ++ [randomLetter room.usedLetters k]) := by
  refine ⟨?_, ?_, ?_⟩
  · intro used k
    unfold randomLetter
    by_cases h : (LETTERS.filter (fun l => !used.contains l)).length ≠ 0
    · rw [if_pos h]
      have hm := getD_mem_of_lt (LETTERS.filter (fun l => !used.contains l))
        (k % (LETTERS.filter (fun l => !used.contains l)).length) 'A'
        (Nat.mod_lt _ (Nat.pos_of_ne_zero h))
      exact List.mem_of_mem_filter hm
    · rw [if_neg h]
      exact getD_mem_of_lt LETTERS (k % LETTERS.length) 'A'
        (Nat.mod_lt _ (by decide))
  · intro used k hex
    obtain ⟨l, hl, hnot⟩ := hex
    have hmem : l ∈ LETTERS.filter (fun x => !used.contains x) := by
      rw [List.mem_filter]
      refine ⟨hl, ?_⟩
      simp only [Bool.not_eq_true']
      cases hc : used.contains l
      · rfl
      · exact absurd (by simpa using hc) hnot
    have hne : (LETTERS.filter (fun x => !used.contains x)).length ≠ 0 := by
      have := List.length_pos.mpr (List.ne_nil_of_mem hmem)
      omega
    unfold randomLetter
    rw [if_pos hne]
    have hm := getD_mem_of_lt (LETTERS.filter (fun x => !used.contains x))
      (k % (LETTERS.filter (fun x => !used.contains x)).length) 'A'
      (Nat.mod_lt _ (Nat.pos_of_ne_zero hne))
    have := List.mem_filter.mp hm
    intro hbad
    have hcontains : used.contains ((LETTERS.filter (fun x => !used.contains x)).getD
        (k % (LETTERS.filter (fun x => !used.contains x)).length) 'A') = true :=
      List.elem_eq_true_of_mem hbad
    have hfalse : (!used.contains ((LETTERS.filter (fun x => !used.contains x)).getD
        (k % (LETTERS.filter (fun x => !used.contains x)).length) 'A')) = true := this.2
    rw [hcontains] at hfalse
    exact absurd hfalse (by decide)
  · intro rs code k now room hr hlt
    unfold startTurn
    rw [hr]
    dsimp only
    rw [if_neg (by omega)]
    dsimp only
    rw [findRoom_setRoom_self]
    exact ⟨_, rfl, rfl, rfl⟩

theorem C6_letter_pool_witness :
    randomLetter [] 0 ∈ LETTERS ∧
    randomLetter ['A'] 0 ∉ (['A'] : List Char) ∧
    (∃ r', findRoom (startTurn demoRooms2 "R" 7 0).1 "R" = some r' ∧
      r'.currentLetter = some (randomLetter demoRoom2.usedLetters 7) ∧
      r'.usedLetters = demoRoom2.usedLetters ++ [randomLetter demoRoom2.usedLetters 7]) :=
  ⟨C6_letter_pool.1 [] 0,
   C6_letter_pool.2.1 ['A'] 0 ⟨'B', by decide, by decide⟩,
   C6_letter_pool.2.2 demoRooms2 "R" 7 0 demoRoom2 (by decide) (by decide)⟩

/-! ### List lemmas about the player mutations -/

theorem bumpScore_forall2 (ps : List Player) (sid : Nat) :
    List.Forall₂
      (fun p q => p.id = q.id ∧ p.name = q.name ∧ p.score ≤ q.score ∧ q.score ≤ p.score + 1)
      ps (bumpScore ps sid) := by
  induction ps with
  | nil => exact List.Forall₂.nil
  | cons p rest ih =>
    unfold bumpScore
    by_cases h : p.id = sid
    · rw [if_pos h]
      exact List.Forall₂.cons ⟨rfl, rfl, Nat.le_succ _, le_refl _⟩
        (List.forall₂_same.mpr (fun x _ => ⟨rfl, rfl, le_refl _, Nat.le_succ _⟩))
    · rw [if_neg h]
      exact List.Forall₂.cons ⟨rfl, rfl, le_refl _, Nat.le_succ _⟩ ih

theorem bumpScore_find? (ps : List Player) (sid : Nat) :
    ((bumpScore ps sid).find? (fun q => q.id == sid)).map (fun q => q.score) =
      (ps.find? (fun q => q.id == sid)).map (fun q => q.score + 1) := by
  induction ps with
  | nil => rfl
  | cons p rest ih =>
    unfold bumpScore
    by_cases h : p.id = sid
    · rw [if_pos h]
      rw [List.find?_cons_of_pos _ (by simpa using h),
          List.find?_cons_of_pos _ (by simpa using h)]
      rfl
    · rw [if_neg h]
      rw [List.find?_cons_of_neg _ (by simpa using h),
          List.find?_cons_of_neg _ (by simpa using h)]
      exact ih

theorem bumpScore_map_id (ps : List Player) (sid : Nat) :
    (bumpScore ps sid).map (fun p => p.id) = ps.map (fun p => p.id) := by
  induction ps with
  | nil => rfl
  | cons p rest ih =>
    unfold bumpScore
    by_cases h : p.id = sid
    · rw [if_pos h]
      rfl
    · rw [if_neg h]
      simpa using ih

theorem removeFirst_sublist (ps : List Player) (sid : Nat) :
    (removeFirst ps sid).Sublist ps := by
  induction ps with
  | nil => exact List.Sublist.refl _
  | cons p rest ih =>
    unfold removeFirst
    by_cases h : p.id = sid
    · rw [if_pos h]
      exact (List.Sublist.refl rest).cons p
    · rw [if_neg h]
      exact ih.cons₂ p

theorem map_id_removeFirst (ps : List Player) (sid : Nat) :
    (removeFirst ps sid).map (fun p => p.id) = (ps.map (fun p => p.id)).erase sid := by
  induction ps with
  | nil => rfl
  | cons p rest ih =>
    unfold removeFirst
    by_cases h : p.id = sid
    · rw [if_pos h, List.map_cons, h, List.erase_cons_head]
    · rw [if_neg h, List.map_cons, List.map_cons,
          List.erase_cons_tail, ih]
      simpa using h

theorem mem_map_id_removeFirst (ps : List Player) (sid x : Nat)
    (hx : x ∈ ps.map (fun p => p.id)) (hne : x ≠ sid) :
    x ∈ (removeFirst ps sid).map (fun p => p.id) := by
  rw [map_id_removeFirst]
  exact (List.mem_erase_of_ne hne).mpr hx

theorem not_mem_map_id_removeFirst (ps : List Player) (sid : Nat)
    (hnd : (ps.map (fun p => p.id)).Nodup) :
    sid ∉ (removeFirst ps sid).map (fun p => p.id) := by
  rw [map_id_removeFirst]
  exact hnd.not_mem_erase

theorem nodup_map_id_removeFirst (ps : List Player) (sid : Nat)
    (hnd : (ps.map (fun p => p.id)).Nodup) :
    ((removeFirst ps sid).map (fun p => p.id)).Nodup := by
  rw [map_id_removeFirst]
  exact hnd.erase sid

theorem removeFirst_nil_iff (ps : List Player) (sid : Nat) :
    removeFirst ps sid ≠ ps → (removeFirst ps sid).map (fun p => p.id)
      = ((ps.map (fun p => p.id)).erase sid) :=
  fun _ => map_id_removeFirst ps sid

theorem not_mem_filter_ne_self (order : List Nat) (sid : Nat) :
    sid ∉ order.filter (fun i => i ≠ sid) := by
  intro h
  have := List.mem_filter.mp h
  simp at this

theorem perm_filter_removeFirst (ps : List Player) (order : List Nat) (sid : Nat)
    (hperm : order.Perm (ps.map (fun p => p.id)))
    (hnd : (ps.map (fun p => p.id)).Nodup) :
    (order.filter (fun i => i ≠ sid)).Perm
      ((removeFirst ps sid).map (fun p => p.id)) := by
  rw [map_id_removeFirst]
  have h1 : (order.filter (fun i => i ≠ sid)).Perm
      ((ps.map (fun p => p.id)).filter (fun i => i ≠ sid)) :=
    hperm.filter _
  have h2 := hnd.erase_eq_filter sid
  rw [h2]
  have h3 : (ps.map (fun p => p.id)).filter (fun x => x != sid)
      = (ps.map (fun p => p.id)).filter (fun i => decide (i ≠ sid)) := by
    apply List.filter_congr
    intro x _
    by_cases hx : x = sid
    · simp [hx]
    · simp [hx]
  rw [h3]
  exact h1

/-! ### Operations leave other rooms untouched -/

theorem startTurn_other (rs : Rooms) (code : String) (k now : Nat) (c' : String)
    (h : code ≠ c') :
    findRoom (startTurn rs code k now).1 c' = findRoom rs c' := by
  unfold startTurn
  cases hf : findRoom rs code with
  | none => rfl
  | some room =>
    dsimp only
    split
    · exact findRoom_setRoom_ne rs code c' _ h
    · exact findRoom_setRoom_ne rs code c' _ h

theorem nextTurn_other (rs : Rooms) (code : String) (k now : Nat) (c' : String)
    (h : code ≠ c') :
    findRoom (nextTurn rs code k now).1 c' = findRoom rs c' := by
  unfold nextTurn
  cases hf : findRoom rs code with
  | none => rfl
  | some room =>
    dsimp only
    rw [startTurn_other _ _ _ _ _ h]
    exact findRoom_setRoom_ne rs code c' _ h

theorem timeoutFire_other (rs : Rooms) (code : String) (serial k now : Nat)
    (c' : String) (h : code ≠ c') :
    findRoom (timeoutFire rs code serial k now).1 c' = findRoom rs c' := by
  unfold timeoutFire
  cases hf : findRoom rs code with
  | none => rfl
  | some room =>
    dsimp only
    split
    · rfl
    · dsimp only
      exact nextTurn_other _ _ _ _ _ h

theorem startGame_other (rs : Rooms) (sid : Nat) (code : String) (k now : Nat)
    (c' : String) (h : code ≠ c') :
    findRoom (startGame rs sid code k now).1 c' = findRoom rs c' := by
  unfold startGame
  cases hf : findRoom rs code with
  | none => rfl
  | some room =>
    dsimp only
    split
    · rfl
    · split
      · rfl
      · dsimp only
        rw [startTurn_other _ _ _ _ _ h]
        exact findRoom_setRoom_ne rs code c' _ h

theorem joinRoom_other (rs : Rooms) (sid : Nat) (pname : String) (code : String)
    (c' : String) (h : code ≠ c') :
    findRoom (joinRoom rs sid pname code).1 c' = findRoom rs c' := by
  unfold joinRoom
  cases hf : findRoom rs code with
  | none => rfl
  | some room =>
    dsimp only
    split
    · rfl
    · exact findRoom_setRoom_ne rs code c' _ h

theorem createRoom_other (rs : Rooms) (sid : Nat) (pname : String) (code : String)
    (c' : String) (h : code ≠ c') :
    findRoom (createRoom rs sid pname code).1 c' = findRoom rs c' := by
  unfold createRoom
  dsimp only
  exact findRoom_setRoom_ne rs code c' _ h

theorem submitAnswers_other (rs : Rooms) (sid : Nat) (code : String) (a : Answers)
    (k now : Nat) (c' : String) (h : code ≠ c') :
    findRoom (submitAnswers rs sid code a k now).1 c' = findRoom rs c' := by
  unfold submitAnswers
  cases hf : findRoom rs code with
  | none => rfl
  | some room =>
    dsimp only
    split
    · rfl
    · cases hcp : currentPlayer room with
      | none => rfl
      | some cp =>
        dsimp only
        split
        · rfl
        · cases hL : room.currentLetter with
          | none => rfl
          | some L =>
            dsimp only
            split
            · rfl
            · dsimp only
              rw [nextTurn_other _ _ _ _ _ h]
              exact findRoom_setRoom_ne rs code c' _ h

theorem disconnectRoom_other (rs : Rooms) (code : String) (sid k now : Nat)
    (c' : String) (h : code ≠ c') :
    findRoom (disconnectRoom rs code sid k now).1 c' = findRoom rs c' := by
  unfold disconnectRoom
  cases hf : findRoom rs code with
  | none => rfl
  | some room =>
    dsimp only
    split
    · rfl
    · cases hrf : removeFirst room.players sid with
      | nil =>
        dsimp only
        exact findRoom_removeRoom_ne rs code c' h
      | cons p0 rest =>
        dsimp only
        split
        · dsimp only
          rw [nextTurn_other _ _ _ _ _ h]
          exact findRoom_setRoom_ne rs code c' _ h
        · exact findRoom_setRoom_ne rs code c' _ h

theorem disconnectRoom_none (rs : Rooms) (code : String) (sid k now : Nat)
    (c' : String) (h : findRoom rs c' = none) :
    findRoom (disconnectRoom rs code sid k now).1 c' = none := by
  by_cases hc : code = c'
  · subst hc
    unfold disconnectRoom
    rw [h]
    exact h
  · rw [disconnectRoom_other rs code sid k now c' hc]
    exact h

/-! ### Threading a relation through the disconnect loop -/

/-- One iteration of the disconnect loop. -/
def disconnectStep (sid k now : Nat) (acc : Rooms × List Emit) (code : String) :
    Rooms × List Emit :=
  let p := disconnectRoom acc.1 code sid k now
  (p.1, acc.2 ++ p.2)

theorem disconnect_eq_foldl (rs : Rooms) (sid k now : Nat) :
    disconnect rs sid k now =
      (rs.map (·.1)).foldl (disconnectStep sid k now) (rs, []) := rfl

theorem foldl_disconnectStep_none (sid k now : Nat) (codes : List String) :
    ∀ (acc : Rooms × List Emit) (c' : String),
      findRoom acc.1 c' = none →
      findRoom (codes.foldl (disconnectStep sid k now) acc).1 c' = none := by
  induction codes with
  | nil =>
    intro acc c' h
    simpa using h
  | cons c cs ih =>
    intro acc c' h
    rw [List.foldl_cons]
    exact ih _ _ (disconnectRoom_none _ _ _ _ _ _ h)

theorem foldl_disconnectStep_rel (sid k now : Nat) (R : Room → Room → Prop)
    (hrefl : ∀ r, R r r)
    (htrans : ∀ a b c, R a b → R b c → R a c)
    (hstep : ∀ rs code c' r r', findRoom rs c' = some r →
      findRoom (disconnectRoom rs code sid k now).1 c' = some r' → R r r')
    (codes : List String) :
    ∀ (acc : Rooms × List Emit) (c' : String) (r r' : Room),
      findRoom acc.1 c' = some r →
      findRoom (codes.foldl (disconnectStep sid k now) acc).1 c' = some r' →
      R r r' := by
  induction codes with
  | nil =>
    intro acc c' r r' h h'
    rw [List.foldl_nil, h] at h'
    cases h'
    exact hrefl r
  | cons c cs ih =>
    intro acc c' r r' h h'
    rw [List.foldl_cons] at h'
    cases hmid : findRoom (disconnectStep sid k now acc c).1 c' with
    | none =>
      have hnone := foldl_disconnectStep_none sid k now cs _ _ hmid
      rw [hnone] at h'
      cases h'
    | some rmid =>
      have h1 : R r rmid := hstep acc.1 c c' r rmid h hmid
      have h2 : R rmid r' := ih _ _ _ _ hmid h'
      exact htrans _ _ _ h1 h2

/-! ### The effect of the disconnect loop body on its own room -/

theorem disconnectRoom_self_spec (rs : Rooms) (code : String) (sid k now : Nat)
    (room : Room) (hr : findRoom rs code = some room) :
    (room.players.all (fun p => p.id ≠ sid) = true →
      disconnectRoom rs code sid k now = (rs, [])) ∧
    (room.players.all (fun p => p.id ≠ sid) = false →
      (removeFirst room.players sid = [] →
        (disconnectRoom rs code sid k now).1 = removeRoom rs code) ∧
      (∀ p0 rest, removeFirst room.players sid = p0 :: rest →
        ∃ r', findRoom (disconnectRoom rs code sid k now).1 code = some r' ∧
          r'.players = p0 :: rest ∧
          r'.order = room.order.filter (fun i => i ≠ sid) ∧
          r'.hostId = (if room.hostId = sid then p0.id else room.hostId) ∧
          r'.roundsPerPlayer = room.roundsPerPlayer ∧
          (r'.turnIndex = room.turnIndex ∨ r'.turnIndex = room.turnIndex + 1))) := by
  constructor
  · intro hall
    unfold disconnectRoom
    rw [hr]
    dsimp only
    rw [if_pos hall]
  · intro hall
    constructor
    · intro hnil
      unfold disconnectRoom
      rw [hr]
      dsimp only
      rw [if_neg (by rw [hall]; exact Bool.false_ne_true)]
      rw [hnil]
    · intro p0 rest hcons
      unfold disconnectRoom
      rw [hr]
      dsimp only
      rw [if_neg (by rw [hall]; exact Bool.false_ne_true)]
      rw [hcons]
      dsimp only
      split
      · dsimp only
        obtain ⟨r', hfind, hp, ho, hh, hrp, hti⟩ :=
          nextTurn_advances _ code k now _ (findRoom_setRoom_self rs code _)
        exact ⟨r', hfind, hp, ho, hh, hrp, Or.inr hti⟩
      · exact ⟨_, findRoom_setRoom_self rs code _, rfl, rfl, rfl, rfl, Or.inl rfl⟩

theorem disconnectRoom_mono (rs : Rooms) (code : String) (sid k now : Nat)
    (c' : String) (r r' : Room)
    (h : findRoom rs c' = some r)
    (h' : findRoom (disconnectRoom rs code sid k now).1 c' = some r') :
    r.turnIndex ≤ r'.turnIndex := by
  by_cases hc : code = c'
  · subst hc
    obtain ⟨hid, hrem⟩ := disconnectRoom_self_spec rs code sid k now r h
    cases hall : r.players.all (fun p => p.id ≠ sid) with
    | true =>
      rw [hid hall] at h'
      rw [h] at h'
      cases h'
      exact le_refl _
    | false =>
      obtain ⟨hnil, hcons⟩ := hrem hall
      cases hrf : removeFirst r.players sid with
      | nil =>
        rw [hnil hrf, findRoom_removeRoom_self] at h'
        cases h'
      | cons p0 rest =>
        obtain ⟨r'', hfind, _, _, _, _, hti⟩ := hcons p0 rest hrf
        rw [hfind] at h'
        cases h'
        rcases hti with hti | hti <;> omega
  · rw [disconnectRoom_other rs code sid k now c' hc] at h'
    rw [h] at h'
    cases h'
    exact le_refl _

theorem disconnectRoom_sublist (rs : Rooms) (code : String) (sid k now : Nat)
    (c' : String) (r r' : Room)
    (h : findRoom rs c' = some r)
    (h' : findRoom (disconnectRoom rs code sid k now).1 c' = some r') :
    r'.players.Sublist r.players := by
  by_cases hc : code = c'
  · subst hc
    obtain ⟨hid, hrem⟩ := disconnectRoom_self_spec rs code sid k now r h
    cases hall : r.players.all (fun p => p.id ≠ sid) with
    | true =>
      rw [hid hall] at h'
      rw [h] at h'
      cases h'
      exact List.Sublist.refl _
    | false =>
      obtain ⟨hnil, hcons⟩ := hrem hall
      cases hrf : removeFirst r.players sid with
      | nil =>
        rw [hnil hrf, findRoom_removeRoom_self] at h'
        cases h'
      | cons p0 rest =>
        obtain ⟨r'', hfind, hp, _, _, _, _⟩ := hcons p0 rest hrf
        rw [hfind] at h'
        cases h'
        rw [hp, ← hrf]
        exact removeFirst_sublist r.players sid
  · rw [disconnectRoom_other rs code sid k now c' hc] at h'
    rw [h] at h'
    cases h'
    exact List.Sublist.refl _

/-- The invariant of claim C4 plus distinctness of the player ids. -/
def goodOrder (r : Room) : Prop :=
  (r.players.map (fun p => p.id)).Nodup ∧
  r.order.Perm (r.players.map (fun p => p.id))

theorem disconnectRoom_good (rs : Rooms) (code : String) (sid k now : Nat)
    (c' : String) (r r' : Room)
    (h : findRoom rs c' = some r)
    (h' : findRoom (disconnectRoom rs code sid k now).1 c' = some r') :
    goodOrder r → goodOrder r' := by
  intro hg
  by_cases hc : code = c'
  · subst hc
    obtain ⟨hid, hrem⟩ := disconnectRoom_self_spec rs code sid k now r h
    cases hall : r.players.all (fun p => p.id ≠ sid) with
    | true =>
      rw [hid hall] at h'
      rw [h] at h'
      cases h'
      exact hg
    | false =>
      obtain ⟨hnil, hcons⟩ := hrem hall
      cases hrf : removeFirst r.players sid with
      | nil =>
        rw [hnil hrf, findRoom_removeRoom_self] at h'
        cases h'
      | cons p0 rest =>
        obtain ⟨r'', hfind, hp, ho, _, _, _⟩ := hcons p0 rest hrf
        rw [hfind] at h'
        cases h'
        constructor
        · rw [hp, ← hrf]
          exact nodup_map_id_removeFirst r.players sid hg.1
        · rw [hp, ho, ← hrf]
          exact perm_filter_removeFirst r.players r.order sid hg.2 hg.1
  · rw [disconnectRoom_other rs code sid k now c' hc] at h'
    rw [h] at h'
    cases h'
    exact hg

/-! ### The same facts for the whole disconnect handler -/

theorem disconnect_found_pre (rs : Rooms) (sid k now : Nat) (c' : String) (r' : Room)
    (h' : findRoom (disconnect rs sid k now).1 c' = some r') :
    ∃ r, findRoom rs c' = some r := by
  cases hb : findRoom rs c' with
  | none =>
    rw [disconnect_eq_foldl] at h'
    rw [foldl_disconnectStep_none sid k now _ _ _ (by simpa using hb)] at h'
    cases h'
  | some r => exact ⟨r, rfl⟩

theorem disconnect_mono (rs : Rooms) (sid k now : Nat) (c' : String) (r r' : Room)
    (h : findRoom rs c' = some r)
    (h' : findRoom (disconnect rs sid k now).1 c' = some r') :
    r.turnIndex ≤ r'.turnIndex := by
  rw [disconnect_eq_foldl] at h'
  exact foldl_disconnectStep_rel sid k now (fun a b => a.turnIndex ≤ b.turnIndex)
    (fun _ => le_refl _) (fun _ _ _ => Nat.le_trans)
    (fun rs₀ code c₀ a b ha hb => disconnectRoom_mono rs₀ code sid k now c₀ a b ha hb)
    (rs.map (·.1)) (rs, []) c' r r' h h'

theorem disconnect_sublist (rs : Rooms) (sid k now : Nat) (c' : String) (r r' : Room)
    (h : findRoom rs c' = some r)
    (h' : findRoom (disconnect rs sid k now).1 c' = some r') :
    r'.players.Sublist r.players := by
  rw [disconnect_eq_foldl] at h'
  exact foldl_disconnectStep_rel sid k now (fun a b => b.players.Sublist a.players)
    (fun _ => List.Sublist.refl _) (fun _ _ _ hab hbc => hbc.trans hab)
    (fun rs₀ code c₀ a b ha hb => disconnectRoom_sublist rs₀ code sid k now c₀ a b ha hb)
    (rs.map (·.1)) (rs, []) c' r r' h h'

theorem disconnect_good (rs : Rooms) (sid k now : Nat) (c' : String) (r r' : Room)
    (h : findRoom rs c' = some r)
    (h' : findRoom (disconnect rs sid k now).1 c' = some r') :
    goodOrder r → goodOrder r' := by
  rw [disconnect_eq_foldl] at h'
  exact foldl_disconnectStep_rel sid k now (fun a b => goodOrder a → goodOrder b)
    (fun _ hg => hg) (fun _ _ _ hab hbc hg => hbc (hab hg))
    (fun rs₀ code c₀ a b ha hb => disconnectRoom_good rs₀ code sid k now c₀ a b ha hb)
    (rs.map (·.1)) (rs, []) c' r r' h h'

/-! ### Per-operation effects on membership and turn counters -/

theorem startTurn_pres (rs : Rooms) (code : String) (k now : Nat) (c' : String)
    (r r' : Room)
    (h : findRoom rs c' = some r)
    (h' : findRoom (startTurn rs code k now).1 c' = some r') :
    r'.players = r.players ∧ r'.order = r.order ∧ r'.turnIndex = r.turnIndex := by
  by_cases hc : code = c'
  · subst hc
    unfold startTurn at h'
    rw [h] at h'
    dsimp only at h'
    split at h'
    · rw [findRoom_setRoom_self] at h'
      cases h'
      exact ⟨rfl, rfl, rfl⟩
    · rw [findRoom_setRoom_self] at h'
      cases h'
      exact ⟨rfl, rfl, rfl⟩
  · rw [startTurn_other _ _ _ _ _ hc] at h'
    rw [h] at h'
    cases h'
    exact ⟨rfl, rfl, rfl⟩

theorem nextTurn_pres (rs : Rooms) (code : String) (k now : Nat) (c' : String)
    (r r' : Room)
    (h : findRoom rs c' = some r)
    (h' : findRoom (nextTurn rs code k now).1 c' = some r') :
    r'.players = r.players ∧ r'.order = r.order ∧ r.turnIndex ≤ r'.turnIndex := by
  by_cases hc : code = c'
  · subst hc
    cases hf : findRoom rs code with
    | none =>
      unfold nextTurn at h'
      rw [hf] at h'
      dsimp only at h'
      rw [h] at h'
      cases h'
      exact ⟨rfl, rfl, le_refl _⟩
    | some room =>
      rw [h] at hf
      cases hf
      obtain ⟨r'', hfind, hp, ho, _, _, hti⟩ := nextTurn_advances rs code k now r h
      rw [hfind] at h'
      cases h'
      rw [hp, ho, hti]
      exact ⟨rfl, rfl, Nat.le_succ _⟩
  · rw [nextTurn_other _ _ _ _ _ hc] at h'
    rw [h] at h'
    cases h'
    exact ⟨rfl, rfl, le_refl _⟩

theorem timeoutFire_pres (rs : Rooms) (code : String) (serial k now : Nat)
    (c' : String) (r r' : Room)
    (h : findRoom rs c' = some r)
    (h' : findRoom (timeoutFire rs code serial k now).1 c' = some r') :
    r'.players = r.players ∧ r'.order = r.order ∧ r.turnIndex ≤ r'.turnIndex := by
  by_cases hc : code = c'
  · subst hc
    unfold timeoutFire at h'
    cases hf : findRoom rs code with
    | none =>
      rw [hf] at h'
      dsimp only at h'
      rw [h] at h'
      cases h'
      exact ⟨rfl, rfl, le_refl _⟩
    | some room =>
      rw [hf] at h'
      dsimp only at h'
      split at h'
      · rw [h] at h'
        cases h'
        exact ⟨rfl, rfl, le_refl _⟩
      · dsimp only at h'
        exact nextTurn_pres rs code k now code r r' h h'
  · rw [timeoutFire_other _ _ _ _ _ _ hc] at h'
    rw [h] at h'
    cases h'
    exact ⟨rfl, rfl, le_refl _⟩

theorem startGame_players (rs : Rooms) (sid : Nat) (code : String) (k now : Nat)
    (c' : String) (r r' : Room)
    (h : findRoom rs c' = some r)
    (h' : findRoom (startGame rs sid code k now).1 c' = some r') :
    r'.players = r.players ∧ r'.order = r.order := by
  by_cases hc : code = c'
  · subst hc
    unfold startGame at h'
    rw [h] at h'
    dsimp only at h'
    split at h'
    · rw [h] at h'
      cases h'
      exact ⟨rfl, rfl⟩
    · split at h'
      · rw [h] at h'
        cases h'
        exact ⟨rfl, rfl⟩
      · dsimp only at h'
        have hmid := findRoom_setRoom_self rs code
          { r with state := .playing, turnIndex := 0, usedLetters := [] }
        have hst := startTurn_pres _ code k now code _ r' hmid h'
        exact ⟨hst.1, hst.2.1⟩
  · rw [startGame_other _ _ _ _ _ _ hc] at h'
    rw [h] at h'
    cases h'
    exact ⟨rfl, rfl⟩

theorem joinRoom_pres (rs : Rooms) (sid : Nat) (pname : String) (code : String)
    (c' : String) (r r' : Room)
    (h : findRoom rs c' = some r)
    (h' : findRoom (joinRoom rs sid pname code).1 c' = some r') :
    (r'.players = r.players ∧ r'.turnIndex = r.turnIndex ∧ r'.order = r.order) ∨
    (r'.players = r.players ++ [{ id := sid, name := pname, score := 0 }] ∧
     r'.turnIndex = r.turnIndex ∧ r'.order = r.order ++ [sid]) := by
  by_cases hc : code = c'
  · subst hc
    unfold joinRoom at h'
    rw [h] at h'
    dsimp only at h'
    split at h'
    · rw [h] at h'
      cases h'
      exact Or.inl ⟨rfl, rfl, rfl⟩
    · rw [findRoom_setRoom_self] at h'
      cases h'
      exact Or.inr ⟨rfl, rfl, rfl⟩
  · rw [joinRoom_other _ _ _ _ _ hc] at h'
    rw [h] at h'
    cases h'
    exact Or.inl ⟨rfl, rfl, rfl⟩

theorem submitAnswers_pres (rs : Rooms) (sid : Nat) (code : String) (a : Answers)
    (k now : Nat) (c' : String) (r r' : Room)
    (h : findRoom rs c' = some r)
    (h' : findRoom (submitAnswers rs sid code a k now).1 c' = some r') :
    (r'.players = r.players ∧ r'.turnIndex = r.turnIndex ∧ r'.order = r.order) ∨
    (r'.players = bumpScore r.players sid ∧ r'.turnIndex = r.turnIndex + 1 ∧
     r'.order = r.order) := by
  by_cases hc : code = c'
  · subst hc
    unfold submitAnswers at h'
    rw [h] at h'
    dsimp only at h'
    split at h'
    · rw [h] at h'
      cases h'
      exact Or.inl ⟨rfl, rfl, rfl⟩
    · split at h'
      · rw [h] at h'
        cases h'
        exact Or.inl ⟨rfl, rfl, rfl⟩
      · split at h'
        · rw [h] at h'
          cases h'
          exact Or.inl ⟨rfl, rfl, rfl⟩
        · split at h'
          · rw [h] at h'
            cases h'
            exact Or.inl ⟨rfl, rfl, rfl⟩
          · split at h'
            · rw [h] at h'
              cases h'
              exact Or.inl ⟨rfl, rfl, rfl⟩
            · dsimp only at h'
              have hmid := findRoom_setRoom_self rs code
                { r with players := bumpScore r.players sid }
              obtain ⟨r'', hfind, hp, ho, _, _, hti⟩ :=
                nextTurn_advances _ code k now _ hmid
              rw [hfind] at h'
              cases h'
              rw [hp, ho, hti]
              exact Or.inr ⟨rfl, rfl, rfl⟩
  · rw [submitAnswers_other _ _ _ _ _ _ _ hc] at h'
    rw [h] at h'
    cases h'
    exact Or.inl ⟨rfl, rfl, rfl⟩

/-! ### Claim C3 -/

def c3Rooms0 : Rooms := (createRoom [] 1 "A" "T").1

def c3Rooms1 : Rooms := (joinRoom c3Rooms0 2 "B" "T").1

def c3Rooms2 : Rooms := (joinRoom c3Rooms1 3 "C" "T").1

def c3Rooms3 : Rooms := (startGame c3Rooms2 1 "T" 0 0).1

/-- Fire the pending timeout with the matching serial. -/
def c3Fire (rs : Rooms) (s : Nat) : Rooms := (timeoutFire rs "T" s 0 0).1

/-- Ten timed-out turns in a row: `turnIndex` reaches 10 with 3 players
(bound 15), still playing. -/
def c3Rooms13 : Rooms :=
  c3Fire (c3Fire (c3Fire (c3Fire (c3Fire (c3Fire (c3Fire (c3Fire (c3Fire
    (c3Fire c3Rooms3 1) 2) 3) 4) 5) 6) 7) 8) 9) 10

/-- Player 3 (not the current player, not the host) disconnects. -/
def c3Rooms14 : Rooms := (disconnect c3Rooms13 3 0 0).1

/-- Claim C3 as stated fails on the code: after ten timed-out turns a
three-player game sits at `turnIndex = 10` (bound 15).  When the
non-current player 3 disconnects, `players.length` drops to 2, so the
bound becomes 10 — yet the room stays `playing` with `turnIndex = 10`,
violating `turnIndex < players.length * roundsPerPlayer` in a reachable
state.  Nothing forces `state = ended` until the next turn advance. -/
theorem C3_counterexample :
    (findRoom c3Rooms14 "T").map (fun r =>
      (r.state, r.turnIndex, r.players.length, r.roundsPerPlayer)) =
      some (.playing, 10, 2, 5) ∧
    ¬ (10 < 2 * 5) := by
  exact ⟨by decide, by decide⟩

/-- Claim C3 (amended): every turn advance (`nextTurn`, used by
submissions, timeouts and current-player disconnects) either ends the game
or re-establishes `turnIndex < players.length * roundsPerPlayer`; and
`turnIndex` is non-decreasing under `joinRoom`, `submitAnswers`,
`timeoutFire` and `disconnect` (only `startGame` resets it).  But a
disconnect of a non-current player can shrink the bound below an already
reached `turnIndex` while the room remains `playing`; the bound is only
re-checked at the next advance. -/
theorem C3_turn_bound_spec :
    (∀ (rs : Rooms) (code : String) (k now : Nat) (room : Room),
      findRoom rs code = some room → room.state = .playing →
      ∃ r', findRoom (nextTurn rs code k now).1 code = some r' ∧
        (r'.state = .ended ∨ (r'.state = .playing ∧
          r'.turnIndex < r'.players.length * r'.roundsPerPlayer))) ∧
    (∀ (rs : Rooms) (sid : Nat) (pname code c' : String) (r r' : Room),
      findRoom rs c' = some r →
      findRoom (joinRoom rs sid pname code).1 c' = some r' →
      r.turnIndex ≤ r'.turnIndex) ∧
    (∀ (rs : Rooms) (sid : Nat) (code : String) (a : Answers) (k now : Nat)
      (c' : String) (r r' : Room),
      findRoom rs c' = some r →
      findRoom (submitAnswers rs sid code a k now).1 c' = some r' →
      r.turnIndex ≤ r'.turnIndex) ∧
    (∀ (rs : Rooms) (code : String) (serial k now : Nat) (c' : String) (r r' : Room),
      findRoom rs c' = some r →
      findRoom (timeoutFire rs code serial k now).1 c' = some r' →
      r.turnIndex ≤ r'.turnIndex) ∧
    (∀ (rs : Rooms) (sid k now : Nat) (c' : String) (r r' : Room),
      findRoom rs c' = some r →
      findRoom (disconnect rs sid k now).1 c' = some r' →
      r.turnIndex ≤ r'.turnIndex) := by
  refine ⟨?_, ?_, ?_, ?_, ?_⟩
  · intro rs code k now room hr hstate
    unfold nextTurn
    rw [hr]
    dsimp only
    unfold startTurn
    rw [findRoom_setRoom_self]
    dsimp only
    split
    · exact ⟨_, findRoom_setRoom_self _ _ _, Or.inl rfl⟩
    · next hlt =>
      exact ⟨_, findRoom_setRoom_self _ _ _, Or.inr ⟨hstate, by dsimp only; omega⟩⟩
  · intro rs sid pname code c' r r' h h'
    rcases joinRoom_pres rs sid pname code c' r r' h h' with ⟨_, hti, _⟩ | ⟨_, hti, _⟩ <;>
      omega
  · intro rs sid code a k now c' r r' h h'
    rcases submitAnswers_pres rs sid code a k now c' r r' h h' with ⟨_, hti, _⟩ | ⟨_, hti, _⟩ <;>
      omega
  · intro rs code serial k now c' r r' h h'
    exact (timeoutFire_pres rs code serial k now c' r r' h h').2.2
  · intro rs sid k now c' r r' h h'
    exact disconnect_mono rs sid k now c' r r' h h'

def c3Room13 : Room := (findRoom c3Rooms13 "T").getD noRoom

def c3Room14 : Room := (findRoom c3Rooms14 "T").getD noRoom

theorem C3_turn_bound_spec_witness :
    (∃ r', findRoom (nextTurn demoRooms2 "R" 0 0).1 "R" = some r' ∧
      (r'.state = .ended ∨ (r'.state = .playing ∧
        r'.turnIndex < r'.players.length * r'.roundsPerPlayer))) ∧
    demoRoom0.turnIndex ≤ demoRoom1.turnIndex ∧
    c3Room13.turnIndex ≤ c3Room14.turnIndex :=
  ⟨C3_turn_bound_spec.1 demoRooms2 "R" 0 0 demoRoom2 (by decide) (by decide),
   C3_turn_bound_spec.2.1 demoRooms0 2 "Ravi" "R" "R" demoRoom0 demoRoom1
     (by decide) (by decide),
   C3_turn_bound_spec.2.2.2.2 c3Rooms13 3 0 0 "T" c3Room13 c3Room14
     (by decide) (by decide)⟩

/-! ### Claim C4 -/

def dupRooms0 : Rooms := (createRoom [] 1 "Asha" "D").1

def dupRooms1 : Rooms := (joinRoom dupRooms0 1 "Asha2" "D").1

def dupRooms2 : Rooms := (disconnect dupRooms1 1 0 0).1

/-- Claim C4 as stated fails on the code for a double join: when the same
connection joins its own room a second time, both collections hold its id
twice; a single disconnect then splices exactly one entry out of `players`
but filters every copy out of `order`, leaving `players = [1]` against
`order = []` — the lengths and the id multisets disagree. -/
theorem C4_counterexample :
    (findRoom dupRooms1 "D").map (fun r => (r.players.map (fun p => p.id), r.order)) =
      some ([1, 1], [1, 1]) ∧
    (findRoom dupRooms2 "D").map (fun r => (r.players.map (fun p => p.id), r.order)) =
      some ([1], []) ∧
    (findRoom dupRooms2 "D").map (fun r => decide (r.order.length = r.players.length)) =
      some false := by
  exact ⟨by decide, by decide, by decide⟩

theorem perm_length_eq_map {order : List Nat} {ps : List Player}
    (h : order.Perm (ps.map (fun p => p.id))) : order.length = ps.length :=
  h.length_eq.trans (List.length_map _ _)

/-- Claim C4 (amended): `order.length = players.length` and the id
multisets agree after every operation, with one proviso: a disconnect
preserves the invariant only when the room's player ids are distinct
(i.e. no connection has joined the same room twice).  `createRoom` and
`joinRoom` establish and preserve it by construction, and every other
operation leaves both collections untouched (they are only ever mutated
together); with a duplicated id, the disconnect splice/filter pair breaks
the invariant as the counterexample shows. -/
theorem C4_order_players_sync :
    (∀ (rs : Rooms) (sid : Nat) (pname code : String),
      ∃ r', findRoom (createRoom rs sid pname code).1 code = some r' ∧
        r'.players = [{ id := sid, name := pname, score := 0 }] ∧
        r'.order = [sid]) ∧
    (∀ (rs : Rooms) (sid : Nat) (pname code c' : String) (r r' : Room),
      findRoom rs c' = some r →
      findRoom (joinRoom rs sid pname code).1 c' = some r' →
      r.order.Perm (r.players.map (fun p => p.id)) →
      (r'.order.length = r'.players.length ∧
       r'.order.Perm (r'.players.map (fun p => p.id)))) ∧
    (∀ (rs : Rooms) (sid : Nat) (code : String) (a : Answers) (k now : Nat)
        (c' : String) (r r' : Room),
      findRoom rs c' = some r →
      findRoom (submitAnswers rs sid code a k now).1 c' = some r' →
      r.order.Perm (r.players.map (fun p => p.id)) →
      (r'.order.length = r'.players.length ∧
       r'.order.Perm (r'.players.map (fun p => p.id)))) ∧
    (∀ (rs : Rooms) (code : String) (serial k now : Nat) (c' : String) (r r' : Room),
      findRoom rs c' = some r →
      findRoom (timeoutFire rs code serial k now).1 c' = some r' →
      r.order.Perm (r.players.map (fun p => p.id)) →
      (r'.order.length = r'.players.length ∧
       r'.order.Perm (r'.players.map (fun p => p.id)))) ∧
    (∀ (rs : Rooms) (sid : Nat) (code : String) (k now : Nat) (c' : String) (r r' : Room),
      findRoom rs c' = some r →
      findRoom (startGame rs sid code k now).1 c' = some r' →
      r.order.Perm (r.players.map (fun p => p.id)) →
      (r'.order.length = r'.players.length ∧
       r'.order.Perm (r'.players.map (fun p => p.id)))) ∧
    (∀ (rs : Rooms) (sid k now : Nat) (c' : String) (r r' : Room),
      findRoom rs c' = some r →
      findRoom (disconnect rs sid k now).1 c' = some r' →
      (r.players.map (fun p => p.id)).Nodup →
      r.order.Perm (r.players.map (fun p => p.id)) →
      (r'.order.length = r'.players.length ∧
       r'.order.Perm (r'.players.map (fun p => p.id)))) := by
  refine ⟨?_, ?_, ?_, ?_, ?_, ?_⟩
  · intro rs sid pname code
    unfold createRoom
    dsimp only
    exact ⟨_, findRoom_setRoom_self _ _ _, rfl, rfl⟩
  · intro rs sid pname code c' r r' h h' hperm
    rcases joinRoom_pres rs sid pname code c' r r' h h' with ⟨hp, _, ho⟩ | ⟨hp, _, ho⟩
    · rw [hp, ho]
      exact ⟨perm_length_eq_map hperm, hperm⟩
    · rw [hp, ho]
      have hperm' : (r.order ++ [sid]).Perm
          ((r.players ++ [({ id := sid, name := pname, score := 0 } : Player)]).map
            (fun p => p.id)) := by
        rw [List.map_append]
        exact hperm.append_right _
      exact ⟨perm_length_eq_map hperm', hperm'⟩
  · intro rs sid code a k now c' r r' h h' hperm
    rcases submitAnswers_pres rs sid code a k now c' r r' h h' with ⟨hp, _, ho⟩ | ⟨hp, _, ho⟩
    · rw [hp, ho]
      exact ⟨perm_length_eq_map hperm, hperm⟩
    · rw [hp, ho]
      have hperm' : r.order.Perm ((bumpScore r.players sid).map (fun p => p.id)) := by
        rw [bumpScore_map_id]
        exact hperm
      exact ⟨perm_length_eq_map hperm', hperm'⟩
  · intro rs code serial k now c' r r' h h' hperm
    obtain ⟨hp, ho, _⟩ := timeoutFire_pres rs code serial k now c' r r' h h'
    rw [hp, ho]
    exact ⟨perm_length_eq_map hperm, hperm⟩
  · intro rs sid code k now c' r r' h h' hperm
    obtain ⟨hp, ho⟩ := startGame_players rs sid code k now c' r r' h h'
    rw [hp, ho]
    exact ⟨perm_length_eq_map hperm, hperm⟩
  · intro rs sid k now c' r r' h h' hnd hperm
    have hg := disconnect_good rs sid k now c' r r' h h' ⟨hnd, hperm⟩
    exact ⟨perm_length_eq_map hg.2, hg.2⟩

def dupRoom1 : Room := (findRoom dupRooms1 "D").getD noRoom

def demoRooms2D : Rooms := (disconnect demoRooms2 2 0 0).1

def demoRoom2D : Room := (findRoom demoRooms2D "R").getD noRoom

theorem C4_order_players_sync_witness :
    (∃ r', findRoom (createRoom [] 1 "Asha" "R").1 "R" = some r' ∧
      r'.players = [{ id := 1, name := "Asha", score := 0 }] ∧
      r'.order = [1]) ∧
    (demoRoom1.order.length = demoRoom1.players.length ∧
     demoRoom1.order.Perm (demoRoom1.players.map (fun p => p.id))) ∧
    (demoRoom2D.order.length = demoRoom2D.players.length ∧
     demoRoom2D.order.Perm (demoRoom2D.players.map (fun p => p.id))) :=
  ⟨C4_order_players_sync.1 [] 1 "Asha" "R",
   C4_order_players_sync.2.1 demoRooms0 2 "Ravi" "R" "R" demoRoom0 demoRoom1
     (by decide) (by decide) (by decide),
   C4_order_players_sync.2.2.2.2.2 demoRooms2 2 0 0 "R" demoRoom2 demoRoom2D
     (by decide) (by decide) (by decide) (by decide)⟩

/-! ### Claim C9 -/

/-- Claim C9 as stated fails on the code for duplicated joins: after the
same connection joined its room twice, its disconnect splices only one of
the two entries out of `players`, so the "removed" player id 1 is still
present in `players` (while `order` lost every copy), and the surviving
room's `hostId` references only that ghost entry. -/
theorem C9_counterexample :
    (findRoom dupRooms1 "D").map (fun r => r.players.map (fun p => p.id)) =
      some [1, 1] ∧
    (findRoom dupRooms2 "D").map (fun r => (r.players.map (fun p => p.id), r.order)) =
      some ([1], []) := by
  exact ⟨by decide, by decide⟩

/-- Claim C9 (amended): provided the room's player ids are distinct (one
join per connection per room), a disconnect removes the player from both
`players` and `order`; if no player remains the room is destroyed
(removed from the registry); otherwise `hostId` is reassigned to the first
remaining player exactly when the host left, and keeps referencing a
present player. -/
theorem C9_disconnect_spec (rs : Rooms) (code : String) (sid k now : Nat)
    (room : Room)
    (hr : findRoom rs code = some room)
    (hnd : (room.players.map (fun p => p.id)).Nodup)
    (hmem : sid ∈ room.players.map (fun p => p.id)) :
    (removeFirst room.players sid = [] →
      findRoom (disconnectRoom rs code sid k now).1 code = none) ∧
    (∀ p0 rest, removeFirst room.players sid = p0 :: rest →
      ∃ r', findRoom (disconnectRoom rs code sid k now).1 code = some r' ∧
        r'.players = p0 :: rest ∧
        sid ∉ r'.players.map (fun p => p.id) ∧
        sid ∉ r'.order ∧
        r'.hostId = (if room.hostId = sid then p0.id else room.hostId) ∧
        (room.hostId ∈ room.players.map (fun p => p.id) →
          r'.hostId ∈ r'.players.map (fun p => p.id))) := by
  have hall : room.players.all (fun p => p.id ≠ sid) = false := by
    obtain ⟨p, hp, hid⟩ := List.mem_map.mp hmem
    cases h : room.players.all (fun p => p.id ≠ sid) with
    | false => rfl
    | true =>
      have := List.all_eq_true.mp h p hp
      simp only [decide_eq_true_eq] at this
      exact absurd hid this
  obtain ⟨_, hrem⟩ := disconnectRoom_self_spec rs code sid k now room hr
  obtain ⟨hnil, hcons⟩ := hrem hall
  constructor
  · intro hempty
    rw [hnil hempty, findRoom_removeRoom_self]
  · intro p0 rest hrf
    obtain ⟨r', hfind, hp, ho, hh, _, _⟩ := hcons p0 rest hrf
    refine ⟨r', hfind, hp, ?_, ?_, hh, ?_⟩
    · rw [hp, ← hrf]
      exact not_mem_map_id_removeFirst room.players sid hnd
    · rw [ho]
      exact not_mem_filter_ne_self room.order sid
    · intro hhost
      rw [hh, hp, ← hrf]
      by_cases hhs : room.hostId = sid
      · rw [if_pos hhs, hrf]
        exact List.mem_map_of_mem _ (List.mem_cons_self _ _)
      · rw [if_neg hhs]
        exact mem_map_id_removeFirst room.players sid room.hostId hhost hhs

theorem C9_disconnect_spec_witness :
    ∃ r', findRoom (disconnectRoom demoRooms2 "R" 2 0 0).1 "R" = some r' ∧
      r'.players = [{ id := 1, name := "Asha", score := 0 }] ∧
      2 ∉ r'.players.map (fun p => p.id) ∧
      2 ∉ r'.order ∧
      r'.hostId =
        (if demoRoom2.hostId = 2 then ({ id := 1, name := "Asha", score := 0 } : Player).id
         else demoRoom2.hostId) ∧
      (demoRoom2.hostId ∈ demoRoom2.players.map (fun p => p.id) →
        r'.hostId ∈ r'.players.map (fun p => p.id)) :=
  (C9_disconnect_spec demoRooms2 "R" 2 0 0 demoRoom2
    (by decide) (by decide) (by decide)).2
    { id := 1, name := "Asha", score := 0 } [] (by decide)

/-! ### Claim C10 -/

/-- Claim C10: scores start at 0 and never decrease.  A room is created
with its sole player at score 0 and `joinRoom` appends a score-0 entry
without touching existing ones; a successful submission rewrites the
players to `bumpScore`, which keeps every id and name, never lowers any
score, raises scores by at most one, and raises the submitter's entry by
exactly one; `startGame` and the turn timeout never change the players at
all; and a disconnect only deletes entries (the remaining entries, scores
included, are kept verbatim as a sublist). -/
theorem C10_score_monotone :
    (∀ (rs : Rooms) (sid : Nat) (pname code : String),
      ∃ r', findRoom (createRoom rs sid pname code).1 code = some r' ∧
        r'.players = [{ id := sid, name := pname, score := 0 }]) ∧
    (∀ (rs : Rooms) (sid : Nat) (pname code c' : String) (r r' : Room),
      findRoom rs c' = some r →
      findRoom (joinRoom rs sid pname code).1 c' = some r' →
      r'.players = r.players ∨
      r'.players = r.players ++ [{ id := sid, name := pname, score := 0 }]) ∧
    (∀ (rs : Rooms) (sid : Nat) (code : String) (a : Answers) (k now : Nat)
        (c' : String) (r r' : Room),
      findRoom rs c' = some r →
      findRoom (submitAnswers rs sid code a k now).1 c' = some r' →
      r'.players = r.players ∨ r'.players = bumpScore r.players sid) ∧
    (∀ (ps : List Player) (sid : Nat),
      List.Forall₂ (fun p q => p.id = q.id ∧ p.name = q.name ∧
        p.score ≤ q.score ∧ q.score ≤ p.score + 1) ps (bumpScore ps sid)) ∧
    (∀ (ps : List Player) (sid : Nat),
      ((bumpScore ps sid).find? (fun q => q.id == sid)).map (fun q => q.score) =
        (ps.find? (fun q => q.id == sid)).map (fun q => q.score + 1)) ∧
    (∀ (rs : Rooms) (sid : Nat) (code : String) (k now : Nat) (c' : String) (r r' : Room),
      findRoom rs c' = some r →
      findRoom (startGame rs sid code k now).1 c' = some r' →
      r'.players = r.players) ∧
    (∀ (rs : Rooms) (code : String) (serial k now : Nat) (c' : String) (r r' : Room),
      findRoom rs c' = some r →
      findRoom (timeoutFire rs code serial k now).1 c' = some r' →
      r'.players = r.players) ∧
    (∀ (rs : Rooms) (sid k now : Nat) (c' : String) (r' : Room),
      findRoom (disconnect rs sid k now).1 c' = some r' →
      ∃ r, findRoom rs c' = some r ∧ r'.players.Sublist r.players) := by
  refine ⟨?_, ?_, ?_, bumpScore_forall2, bumpScore_find?, ?_, ?_, ?_⟩
  · intro rs sid pname code
    unfold createRoom
    dsimp only
    exact ⟨_, findRoom_setRoom_self _ _ _, rfl⟩
  · intro rs sid pname code c' r r' h h'
    rcases joinRoom_pres rs sid pname code c' r r' h h' with ⟨hp, _, _⟩ | ⟨hp, _, _⟩
    · exact Or.inl hp
    · exact Or.inr hp
  · intro rs sid code a k now c' r r' h h'
    rcases submitAnswers_pres rs sid code a k now c' r r' h h' with ⟨hp, _, _⟩ | ⟨hp, _, _⟩
    · exact Or.inl hp
    · exact Or.inr hp
  · intro rs sid code k now c' r r' h h'
    exact (startGame_players rs sid code k now c' r r' h h').1
  · intro rs code serial k now c' r r' h h'
    exact (timeoutFire_pres rs code serial k now c' r r' h h').1
  · intro rs sid k now c' r' h'
    obtain ⟨r, hr⟩ := disconnect_found_pre rs sid k now c' r' h'
    exact ⟨r, hr, disconnect_sublist rs sid k now c' r r' hr h'⟩

def demoRooms3 : Rooms := (submitAnswers demoRooms2 1 "R" demoAnswers 0 0).1

def demoRoom3 : Room := (findRoom demoRooms3 "R").getD noRoom

theorem C10_score_monotone_witness :
    (∃ r', findRoom (createRoom [] 5 "Devi" "W").1 "W" = some r' ∧
      r'.players = [{ id := 5, name := "Devi", score := 0 }]) ∧
    (demoRoom1.players = demoRoom0.players ∨
      demoRoom1.players = demoRoom0.players ++ [{ id := 2, name := "Ravi", score := 0 }]) ∧
    (demoRoom3.players = demoRoom2.players ∨
      demoRoom3.players = bumpScore demoRoom2.players 1) ∧
    (∃ r, findRoom demoRooms2 "R" = some r ∧ demoRoom2D.players.Sublist r.players) :=
  ⟨C10_score_monotone.1 [] 5 "Devi" "W",
   C10_score_monotone.2.1 demoRooms0 2 "Ravi" "R" "R" demoRoom0 demoRoom1
     (by decide) (by decide),
   C10_score_monotone.2.2.1 demoRooms2 1 "R" demoAnswers 0 0 "R" demoRoom2 demoRoom3
     (by decide) (by decide),
   C10_score_monotone.2.2.2.2.2.2.2 demoRooms2 2 0 0 "R" demoRoom2D (by decide)⟩

end MPG
